import Mathlib

/-!
Verification development for the LS-DYNA press-forming configuration tool.

The Python sources under `src/core` are shallowly embedded here:

* floating-point numbers are idealised as an arbitrary linear ordered field
  `α` (rationals in concrete computations, reals where `π`/`cos`/`sin`
  genuinely matter); `numpy.cos`, `numpy.sin`, `numpy.pi` are ambient
  parameters `rcos`, `rsin`, `rpi` of the embedding and are instantiated
  with `Real.cos`, `Real.sin`, `Real.pi` in the theorems that depend on
  their analytic properties;
* Python dicts are association lists with Python's insertion-order
  update semantics (`dictLookup`, `dictUpsert`);
* raised exceptions become `Except` errors; the payload of an error value
  records exactly the data that the Python message string interpolates
  (for example `ToolError.thresholdNotReached` carries the threshold and,
  when the message prints it, the observed maximum of the reference curve);
* mutable objects (`ToolConditionManager`, `IDManager`) become explicit
  state threading.
-/

namespace App

/-! ### Python dicts as association lists -/

/-- Lookup in a Python dict modelled as an association list. -/
def dictLookup {κ β : Type} [DecidableEq κ] (k : κ) : List (κ × β) → Option β
  | [] => none
  | (k', v) :: rest => if k' = k then some v else dictLookup k rest

/-- Python `d[k] = v`: update the existing entry in place, else append. -/
def dictUpsert {κ β : Type} [DecidableEq κ] (k : κ) (v : β) :
    List (κ × β) → List (κ × β)
  | [] => [(k, v)]
  | (k', v') :: rest =>
      if k' = k then (k, v) :: rest else (k', v') :: dictUpsert k v rest

/-- Build a Python dict from a list of key/value assignments in order. -/
def dictFromPairs {κ β : Type} [DecidableEq κ] (ps : List (κ × β)) :
    List (κ × β) :=
  ps.foldl (fun d p => dictUpsert p.1 p.2 d) []

/-! ### Python string primitives, modelled on the character list -/

/-- Python `str.strip()`: drop leading and trailing whitespace. -/
def pyStrip (s : String) : String :=
  ⟨((s.data.dropWhile Char.isWhitespace).reverse.dropWhile
      Char.isWhitespace).reverse⟩

/-- Python `str.lower()`. -/
def pyLower (s : String) : String :=
  ⟨s.data.map Char.toLower⟩

/-- Python `str.replace(old, new)` for one-character `old` and `new`. -/
def pyReplaceChar (s : String) (old new : Char) : String :=
  ⟨s.data.map fun c => if c = old then new else c⟩

/-- Python `str.replace(old, "")` for a one-character `old`. -/
def pyRemoveChar (s : String) (old : Char) : String :=
  ⟨s.data.filter fun c => c ≠ old⟩

/-! ### `src/core/common/direction.py` -/

/-- Coordinate axis (`Axis` enum). -/
inductive Axis where
  | X
  | Y
  | Z
deriving DecidableEq, Repr

/-- LS-DYNA DOF number of an axis (`Axis.dof_number`). -/
def Axis.dof_number : Axis → ℤ
  | .X => 1
  | .Y => 2
  | .Z => 3

/-- Sign of a direction (`Sign` enum). -/
inductive Sign where
  | POSITIVE
  | NEGATIVE
deriving DecidableEq, Repr

/-- Scale-factor multiplier of a sign (`Sign.multiplier`, `float(value)`). -/
def Sign.multiplier {α : Type} [LinearOrderedField α] : Sign → α
  | .POSITIVE => 1
  | .NEGATIVE => -1

/-- Immutable direction value object (`Direction`). -/
structure Direction where
  axis : Axis
  sign : Sign
deriving DecidableEq, Repr

/-- DOF number of a direction (`Direction.dof_number`). -/
def Direction.dof_number (d : Direction) : ℤ := d.axis.dof_number

/-- Scale factor of a direction (`Direction.scale_factor`). -/
def Direction.scale_factor {α : Type} [LinearOrderedField α] (d : Direction) :
    α :=
  d.sign.multiplier

/-- Structured payloads of the `ValueError`s raised by
`Direction.from_string`; each constructor records the data interpolated
into the corresponding Python message. -/
inductive DirectionError where
  | invalidLength (s : String)
  | invalidSign (c : Char)
  | invalidAxis (c : Char)
deriving DecidableEq, Repr

/-- `Direction.from_string`: strip whitespace, require exactly two
characters, parse `'+'`/`'-'` and a case-insensitive axis letter. -/
def Direction.from_string (direction_str : String) :
    Except DirectionError Direction :=
  let s := pyStrip direction_str
  match s.data with
  | [sign_char, axis_raw] =>
      let axis_char := axis_raw.toLower
      match (match sign_char with
             | '+' => Except.ok Sign.POSITIVE
             | '-' => Except.ok Sign.NEGATIVE
             | c => Except.error (DirectionError.invalidSign c)) with
      | .error e => .error e
      | .ok sign =>
          match axis_char with
          | 'x' => .ok ⟨Axis.X, sign⟩
          | 'y' => .ok ⟨Axis.Y, sign⟩
          | 'z' => .ok ⟨Axis.Z, sign⟩
          | c => .error (DirectionError.invalidAxis c)
  | _ => .error (DirectionError.invalidLength s)

/-! ### `src/core/boundaries/enums.py` -/

/-- `ConditionType` enum. -/
inductive ConditionType where
  | FORCED_MOTION
  | LOAD_APPLICATION
deriving DecidableEq, Repr

/-- `MotionControlType` enum. -/
inductive MotionControlType where
  | DISPLACEMENT
  | VELOCITY
deriving DecidableEq, Repr

/-- `StrokeMode` enum. -/
inductive StrokeMode where
  | FORWARD_ONLY
  | RECIPROCATING
deriving DecidableEq, Repr

/-- String value of a stroke mode (`StrokeMode.value`). -/
def StrokeMode.value : StrokeMode → String
  | .FORWARD_ONLY => "forward_only"
  | .RECIPROCATING => "reciprocating"

/-- `FollowMode` enum. -/
inductive FollowMode where
  | DISPLACEMENT
  | VELOCITY
deriving DecidableEq, Repr

/-! ### Errors raised by the curve / boundary-condition layer

Each constructor stands for one `raise` site; its arguments record the
data interpolated into the Python message. `thresholdNotReached` carries
the observed maximum of the reference curve as an `Option` because only
the displacement-following message prints it. -/

/-- Structured payloads of the exceptions raised by the curve generators
and the tool-condition manager. -/
inductive ToolError (α : Type) where
  | direction (e : DirectionError)
  | directionNotString
  | invalidAxisString (s : String)
  | nonPositiveSf (sf : α)
  | invalidCurveType (s : String)
  | invalidStrokeMode (s : String)
  | invalidVad (vad : ℤ)
  | missingAmount
  | missingMotionControlType
  | missingFollowingConfig
  | missingPositionLimits
  | unsupportedMotionDataType (s : String)
  | thresholdNotReached (threshold : α) (refMax : Option α)
  | leaderCurveNotFound (leader_pid : ℤ)
  | leaderMotionDataNotFound (leader_id : ℤ)
deriving DecidableEq, Repr

/-! ### Keyword records produced for the solver deck -/

/-- `kwd.DefineCurve`: an ID-tagged list of (time, value) samples. -/
structure DefineCurve (α : Type) where
  lcid : ℤ
  sidr : ℤ
  curves : List (α × α)
  title : String
deriving DecidableEq, Repr

/-- `kwd.BoundaryPrescribedMotion`. -/
structure BoundaryPrescribedMotion (α : Type) where
  pid : ℤ
  lcid : ℤ
  dof : ℤ
  sf : α
  vad : ℤ
  title : String
deriving DecidableEq, Repr

/-- `kwd.LoadRigidBody`. -/
structure LoadRigidBody (α : Type) where
  pid : ℤ
  lcid : ℤ
  dof : ℤ
  sf : α
  title : String
deriving DecidableEq, Repr

/-- `kwd.ConstrainedRigidBodyStoppers`. -/
structure ConstrainedRigidBodyStoppers where
  pid : ℤ
  lcmax : ℤ
  lcmin : ℤ
  lcvmx : Option ℤ
  dir : ℤ
  title : String
deriving DecidableEq, Repr

/-- A boundary-condition keyword stored in a result dictionary. -/
inductive ToolCondition (α : Type) where
  | motion (c : BoundaryPrescribedMotion α)
  | load (c : LoadRigidBody α)
  | stoppers (c : ConstrainedRigidBodyStoppers)
deriving DecidableEq, Repr

section Curves

variable {α : Type} [LinearOrderedField α]

/-! ### `src/core/curves/generators.py` -/

/-- `numpy.linspace(a, b, n)` in exact arithmetic: `n` evenly spaced
samples from `a` to `b` inclusive (`[a]` for `n = 1`, `[]` for `n = 0`). -/
def linspace (a b : α) (n : ℕ) : List α :=
  if n = 1 then [a]
  else
    (List.range n).map fun i : ℕ =>
      a + (b - a) * (i : α) / ((n : α) - 1)

variable (rcos rsin : α → α) (rpi : α)

/-- `generate_half_cosine_curve`: half-cosine 0→1 ramp over
`[0, ramp_time]` followed by the two explicit hold points. Returns the
(time array, value array) pair. -/
def generate_half_cosine_curve (ramp_time hold_time : α) (num_pts : ℕ) :
    List α × List α :=
  let t_ramp := linspace 0 ramp_time num_pts
  let y_ramp := t_ramp.map fun t => 1 / 2 * (1 - rcos (rpi * t / ramp_time))
  (t_ramp ++ [ramp_time, ramp_time + hold_time], y_ramp ++ [1, 1])

/-- `generate_half_cosine_derivative_curve`. -/
def generate_half_cosine_derivative_curve (ramp_time hold_time : α)
    (num_pts : ℕ) : List α × List α :=
  let t_ramp := linspace 0 ramp_time num_pts
  let deriv_ramp :=
    t_ramp.map fun t => 1 / 2 * (rpi / ramp_time) * rsin (rpi * t / ramp_time)
  (t_ramp ++ [ramp_time, ramp_time + hold_time], deriv_ramp ++ [0, 0])

/-- `generate_full_cosine_curve`: full-cosine 0→1→0 cycle followed by the
two explicit hold points at value 0. -/
def generate_full_cosine_curve (cycle_time hold_time : α) (num_pts : ℕ) :
    List α × List α :=
  let t_cycle := linspace 0 cycle_time num_pts
  let y_cycle :=
    t_cycle.map fun t => 1 / 2 * (1 - rcos (2 * rpi * t / cycle_time))
  (t_cycle ++ [cycle_time, cycle_time + hold_time], y_cycle ++ [0, 0])

/-- `generate_full_cosine_derivative_curve`. -/
def generate_full_cosine_derivative_curve (cycle_time hold_time : α)
    (num_pts : ℕ) : List α × List α :=
  let t_cycle := linspace 0 cycle_time num_pts
  let deriv_cycle :=
    t_cycle.map fun t => (rpi / cycle_time) * rsin (2 * rpi * t / cycle_time)
  (t_cycle ++ [cycle_time, cycle_time + hold_time], deriv_cycle ++ [0, 0])

/-- `create_preload_curve` (Python defaults: `ramp_time=0.02`,
`hold_time=10.0`, `num_pts=100`); note `sidr=2`. -/
def create_preload_curve (lcid : ℤ) (ramp_time hold_time : α) (num_pts : ℕ)
    (title : String) : DefineCurve α :=
  let ty := generate_half_cosine_curve rcos rpi ramp_time hold_time num_pts
  ⟨lcid, 2, ty.1.zip ty.2, title⟩

/-- `create_stroke_curve`: validate `curve_type` and `stroke_mode`, pick
the matching waveform, scale the values by `sfo`. The `sfo` argument is
an `Option` because the manager passes the possibly-absent
`displacement_amount` / `velocity_amount` straight through; a `none`
models the Python `TypeError` raised by `y * None`. -/
def create_stroke_curve (lcid : ℤ) (ramp_time hold_time : α)
    (sfo : Option α) (num_pts : ℕ) (curve_type stroke_mode : String)
    (title : String) : Except (ToolError α) (DefineCurve α) :=
  if curve_type ≠ "displacement" ∧ curve_type ≠ "velocity" then
    .error (.invalidCurveType curve_type)
  else if stroke_mode ≠ "forward_only" ∧ stroke_mode ≠ "reciprocating" then
    .error (.invalidStrokeMode stroke_mode)
  else
    let ty : List α × List α :=
      if stroke_mode = "forward_only" then
        if curve_type = "displacement" then
          generate_half_cosine_curve rcos rpi ramp_time hold_time num_pts
        else
          generate_half_cosine_derivative_curve rsin rpi ramp_time hold_time
            num_pts
      else
        if curve_type = "displacement" then
          generate_full_cosine_curve rcos rpi ramp_time hold_time num_pts
        else
          generate_full_cosine_derivative_curve rsin rpi ramp_time hold_time
            num_pts
    match sfo with
    | none => .error .missingAmount
    | some s => .ok ⟨lcid, 0, ty.1.zip (ty.2.map (· * s)), title⟩

/-- `create_constant_curve`: two points spanning `[0, 1e21]`. -/
def create_constant_curve (lcid : ℤ) (sfo : α) (title : String) :
    DefineCurve α :=
  ⟨lcid, 0, [(0, sfo), ((10 : α) ^ (21 : ℕ), sfo)], title⟩

/-- The scan loop of `create_threshold_following_curve`: find the first
segment `[i, i+1]` with `y[i] ≤ threshold ≤ y[i+1]` and return the
linearly interpolated crossing time. -/
def findCrossing (thr : α) : List (α × α) → Option α
  | [] => none
  | [_] => none
  | (t0, y0) :: (t1, y1) :: rest =>
      if y0 ≤ thr ∧ thr ≤ y1 then
        some (t0 + (thr - y0) / (y1 - y0) * (t1 - t0))
      else
        findCrossing thr ((t1, y1) :: rest)

/-- Python `max` over a list (`max(y_ref)`); `none` on the empty list,
where Python raises instead. -/
def listMax : List α → Option α
  | [] => none
  | x :: xs => some (xs.foldl max x)

/-- Position used by `t_new.insert(-k, t_sw)` for a list of length `n`:
Python clamps the negative index `-k` to `max 0 (n - k)`. -/
def pyInsertPos (n k : ℕ) : ℕ :=
  if k = 0 then 0 else n - k

/-- `list.insert(pos, x)`. -/
def insertAt (pos : ℕ) (x : α × α) (l : List (α × α)) : List (α × α) :=
  l.take pos ++ x :: l.drop pos

/-- Ordering of curve rows by time, used for `sort_values("a1")`. -/
def timeLE (p q : α × α) : Prop := p.1 ≤ q.1

instance : DecidableRel (timeLE (α := α)) := fun p q =>
  inferInstanceAs (Decidable (p.1 ≤ q.1))

instance : IsTotal (α × α) (timeLE (α := α)) :=
  ⟨fun p q => le_total p.1 q.1⟩

instance : IsTrans (α × α) (timeLE (α := α)) :=
  ⟨fun _ _ _ h h' => le_trans h h'⟩

/-- `curve_df.sort_values("a1")`. -/
def sortByTime (l : List (α × α)) : List (α × α) :=
  l.insertionSort timeLE

/-- `create_threshold_following_curve`: locate the crossing time `t_sw`,
zero the curve up to `t_sw`, follow `y - threshold` afterwards, insert
the explicit switch point if the time is new, and sort by time. The
reference curve is the paired rows of the `a1`/`o1` DataFrame columns. -/
def create_threshold_following_curve (lcid : ℤ)
    (threshold_displacement : α) (reference_curve_data : List (α × α))
    (title : String) : Except (ToolError α) (DefineCurve α) :=
  match findCrossing threshold_displacement reference_curve_data with
  | none =>
      .error (.thresholdNotReached threshold_displacement
        (listMax (reference_curve_data.map Prod.snd)))
  | some t_sw =>
      let y_sw := threshold_displacement
      let base := reference_curve_data.map fun p =>
        if p.1 ≤ t_sw then (p.1, (0 : α)) else (p.1, p.2 - y_sw)
      let withSw :=
        if t_sw ∈ reference_curve_data.map Prod.fst then base
        else
          insertAt
            (pyInsertPos reference_curve_data.length
              ((reference_curve_data.filter fun p => t_sw < p.1).length))
            (t_sw, 0) base
      .ok ⟨lcid, 0, sortByTime withSw, title⟩

/-- The construction loop of `_create_velocity_following_curve`: zero
velocity up to `t_sw`; afterwards the leader's local backward-difference
slope. Each row is paired with its predecessor (`none` for the first
row, which Python's `i > 0` guard skips). -/
def velocity_follow_points (t_sw : α) (pts : List (α × α)) :
    List (α × α) :=
  (pts.zip ((none : Option (α × α)) :: pts.map some)).filterMap fun pq =>
    if pq.1.1 ≤ t_sw then some (pq.1.1, (0 : α))
    else
      match pq.2 with
      | none => none
      | some q =>
          let dt := pq.1.1 - q.1
          let dy := pq.1.2 - q.2
          some (pq.1.1, if 0 < dt then dy / dt else 0)

/-- `ToolConditionManager._create_velocity_following_curve`; its
"threshold not reached" message prints only the threshold, so the error
payload has `refMax = none`. -/
def _create_velocity_following_curve (lcid : ℤ)
    (threshold_displacement : α) (reference_curve_data : List (α × α))
    (title : String) : Except (ToolError α) (DefineCurve α) :=
  match findCrossing threshold_displacement reference_curve_data with
  | none => .error (.thresholdNotReached threshold_displacement none)
  | some t_sw =>
      .ok ⟨lcid, 0, velocity_follow_points t_sw reference_curve_data, title⟩

/-! ### `src/core/boundaries/motion.py`: configuration records -/

/-- A `direction` field value: Python accepts a string or a `Direction`. -/
inductive DirInput where
  | str (s : String)
  | dir (d : Direction)
deriving DecidableEq, Repr

/-- `PositionLimits`. -/
structure PositionLimits (α : Type) where
  max_position : α
  min_position : α
deriving DecidableEq, Repr

/-- `VelocityLimitConfig` (Python default `limit_multiplier=1.1`). -/
structure VelocityLimitConfig (α : Type) where
  leader_part_id : ℤ
  limit_multiplier : α
deriving DecidableEq, Repr

/-- `FollowingConfig`. -/
structure FollowingConfig (α : Type) where
  leader_pid : ℤ
  threshold_displacement : α
  follow_mode : FollowMode
deriving DecidableEq, Repr

/-- `ToolConditionConfig`. -/
structure ToolConditionConfig (α : Type) where
  condition_type : ConditionType
  part_id : ℤ
  direction : DirInput
  name : String
  motion_control_type : Option MotionControlType := none
  displacement_amount : Option α := none
  velocity_amount : Option α := none
  motion_time : Option α := none
  stroke_mode : StrokeMode := .FORWARD_ONLY
  following_config : Option (FollowingConfig α) := none
  load_amount : Option α := none
  position_limits : Option (PositionLimits α) := none
  velocity_limit_config : Option (VelocityLimitConfig α) := none
deriving DecidableEq, Repr

/-- One leader entry of `self.leader_motion_data`; `type` is the stored
string tag, `amount` the possibly-absent configured magnitude. -/
structure LeaderMotionData (α : Type) where
  type : String
  amount : Option α
  motion_time : α
deriving DecidableEq, Repr

/-- Python's `x or default` on an optional float: `None` and `0.0` both
fall back to the default. -/
def pyOrD (o : Option α) (d : α) : α :=
  match o with
  | none => d
  | some v => if v = 0 then d else v

/-! ### `src/core/boundaries/motion.py`: module-level builders -/

/-- `_resolve_direction`. -/
def _resolve_direction (dof : DirInput) : Except (ToolError α) Direction :=
  match dof with
  | .dir d => .ok d
  | .str s => (Direction.from_string s).mapError ToolError.direction

/-- `_resolve_axis` on the sign-stripped direction string:
`Axis(limit_direction.lower().strip())`. -/
def _resolve_axis (limit_direction : String) : Except (ToolError α) Axis :=
  let t := pyStrip (pyLower limit_direction)
  if t = "x" then .ok .X
  else if t = "y" then .ok .Y
  else if t = "z" then .ok .Z
  else .error (.invalidAxisString limit_direction)

/-- `create_rigid_preload`; `sf` is the possibly-absent `load_amount`
(`None` makes Python's `sf <= 0` comparison raise, modelled by
`missingAmount`), and a non-positive `sf` raises `ValueError`. -/
def create_rigid_preload (pid : ℤ) (lcid : ℤ) (sf : Option α)
    (dof : DirInput) (title : String) :
    Except (ToolError α) (LoadRigidBody α) :=
  match sf with
  | none => .error .missingAmount
  | some s =>
      if s ≤ 0 then .error (.nonPositiveSf s)
      else
        match _resolve_direction dof with
        | .error e => .error e
        | .ok direction =>
            .ok ⟨pid, lcid, direction.dof_number,
              s * direction.scale_factor, title⟩

/-- `create_stroke_condition` (Python defaults `sf=1.0`, `vad=2`). -/
def create_stroke_condition (pid : ℤ) (lcid : ℤ) (dof : DirInput) (sf : α)
    (vad : ℤ) (title : String) :
    Except (ToolError α) (BoundaryPrescribedMotion α) :=
  if sf ≤ 0 then .error (.nonPositiveSf sf)
  else
    match _resolve_direction dof with
    | .error e => .error e
    | .ok direction =>
        if vad ≠ 0 ∧ vad ≠ 1 ∧ vad ≠ 2 then .error (.invalidVad vad)
        else
          .ok ⟨pid, lcid, direction.dof_number,
            sf * direction.scale_factor, vad, title⟩

/-- `create_limit_condition`. -/
def create_limit_condition (pid : ℤ) (limit_direction : String)
    (lcid_max lcid_min : ℤ) (lcid_velocity_limit : Option ℤ)
    (title : String) :
    Except (ToolError α) ConstrainedRigidBodyStoppers :=
  match _resolve_axis (α := α) limit_direction with
  | .error e => .error e
  | .ok axis =>
      .ok ⟨pid, -lcid_max, -lcid_min, lcid_velocity_limit,
        axis.dof_number, title⟩

/-! ### `ToolConditionManager` -/

/-- The mutable state of a `ToolConditionManager`; `global_motion_time`
models the `"motion_time"` entry of `global_config`. -/
structure ToolConditionManager (α : Type) where
  global_motion_time : Option α
  curve_id_counter : ℤ
  leader_curves : List (ℤ × DefineCurve α)
  leader_motion_data : List (ℤ × LeaderMotionData α)
deriving DecidableEq, Repr

/-- `ToolConditionManager.__init__`. -/
def initManager (global_motion_time : Option α) : ToolConditionManager α :=
  ⟨global_motion_time, 9000, [], []⟩

/-- `self.global_config.get("motion_time", 0.5)`. -/
def ToolConditionManager.defaultMotionTime (m : ToolConditionManager α) :
    α :=
  m.global_motion_time.getD (1 / 2)

/-- `_get_next_curve_id`: increment the counter and return it. -/
def _get_next_curve_id (m : ToolConditionManager α) :
    ℤ × ToolConditionManager α :=
  (m.curve_id_counter + 1, { m with curve_id_counter := m.curve_id_counter + 1 })

/-- `_store_leader_motion_data`. -/
def _store_leader_motion_data (m : ToolConditionManager α)
    (config : ToolConditionConfig α) : ToolConditionManager α :=
  match config.motion_control_type with
  | some .DISPLACEMENT =>
      { m with
        leader_motion_data :=
          dictUpsert config.part_id
            ⟨"displacement", config.displacement_amount,
              pyOrD config.motion_time m.defaultMotionTime⟩
            m.leader_motion_data }
  | some .VELOCITY =>
      { m with
        leader_motion_data :=
          dictUpsert config.part_id
            ⟨"velocity", config.velocity_amount,
              pyOrD config.motion_time m.defaultMotionTime⟩
            m.leader_motion_data }
  | none => m

variable (rcos rsin : α → α) (rpi : α)

/-- `_calculate_velocity_limit_from_leader`; `rpi` models `np.pi`. -/
def _calculate_velocity_limit_from_leader (m : ToolConditionManager α)
    (velocity_config : VelocityLimitConfig α) : Except (ToolError α) α :=
  match dictLookup velocity_config.leader_part_id m.leader_motion_data with
  | none =>
      .error (.leaderMotionDataNotFound velocity_config.leader_part_id)
  | some leader_data =>
      if leader_data.type = "displacement" then
        match leader_data.amount with
        | none => .error .missingAmount
        | some amount =>
            let max_velocity :=
              rpi / (2 * leader_data.motion_time) * amount
            .ok (|max_velocity| * velocity_config.limit_multiplier)
      else if leader_data.type = "velocity" then
        match leader_data.amount with
        | none => .error .missingAmount
        | some amount => .ok (|amount| * velocity_config.limit_multiplier)
      else .error (.unsupportedMotionDataType leader_data.type)

/-- `_create_displacement_control`. -/
def _create_displacement_control (m : ToolConditionManager α)
    (config : ToolConditionConfig α) :
    Except (ToolError α)
      ((List (String × DefineCurve α) × List (String × ToolCondition α)) ×
        ToolConditionManager α) :=
  let idm := _get_next_curve_id m
  let curve_id := idm.1
  let m1 := idm.2
  match create_stroke_curve rcos rsin rpi curve_id
      (pyOrD config.motion_time m1.defaultMotionTime) 10
      config.displacement_amount 100 "displacement" config.stroke_mode.value
      (config.name ++ " displacement curve") with
  | .error e => .error e
  | .ok stroke_curve =>
      let m2 :=
        { m1 with
          leader_curves :=
            dictUpsert config.part_id stroke_curve m1.leader_curves }
      let m3 := _store_leader_motion_data m2 config
      match create_stroke_condition config.part_id curve_id config.direction
          1 2 config.name with
      | .error e => .error e
      | .ok condition =>
          .ok (([("displacement", stroke_curve)],
            [("motion", ToolCondition.motion condition)]), m3)

/-- `_create_velocity_control`. -/
def _create_velocity_control (m : ToolConditionManager α)
    (config : ToolConditionConfig α) :
    Except (ToolError α)
      ((List (String × DefineCurve α) × List (String × ToolCondition α)) ×
        ToolConditionManager α) :=
  let idm := _get_next_curve_id m
  let curve_id := idm.1
  let m1 := idm.2
  match create_stroke_curve rcos rsin rpi curve_id
      (pyOrD config.motion_time m1.defaultMotionTime) 10
      config.velocity_amount 100 "velocity" config.stroke_mode.value
      (config.name ++ " velocity curve") with
  | .error e => .error e
  | .ok velocity_curve =>
      let m2 :=
        { m1 with
          leader_curves :=
            dictUpsert config.part_id velocity_curve m1.leader_curves }
      let m3 := _store_leader_motion_data m2 config
      match create_stroke_condition config.part_id curve_id config.direction
          1 0 config.name with
      | .error e => .error e
      | .ok condition =>
          .ok (([("velocity", velocity_curve)],
            [("motion", ToolCondition.motion condition)]), m3)

/-- `config.direction.replace('+', '').replace('-', '')`; a `Direction`
object has no `.replace`, which Python turns into an `AttributeError`. -/
def _strip_direction_signs (d : DirInput) : Except (ToolError α) String :=
  match d with
  | .str s => .ok (pyRemoveChar (pyRemoveChar s '+') '-')
  | .dir _ => .error .directionNotString

/-- `_create_position_limits`. -/
def _create_position_limits (m : ToolConditionManager α)
    (config : ToolConditionConfig α) :
    Except (ToolError α)
      ((List (String × DefineCurve α) × ConstrainedRigidBodyStoppers) ×
        ToolConditionManager α) :=
  match config.position_limits with
  | none => .error .missingPositionLimits
  | some limits =>
      let idm := _get_next_curve_id m
      let max_curve_id := idm.1
      let m1 := idm.2
      let max_curve :=
        create_constant_curve max_curve_id limits.max_position
          (config.name ++ " position limit max")
      let idm2 := _get_next_curve_id m1
      let min_curve_id := idm2.1
      let m2 := idm2.2
      let min_curve :=
        create_constant_curve min_curve_id limits.min_position
          (config.name ++ " position limit min")
      match config.velocity_limit_config with
      | none =>
          match _strip_direction_signs (α := α) config.direction with
          | .error e => .error e
          | .ok limit_direction =>
              match create_limit_condition (α := α) config.part_id
                  limit_direction max_curve_id min_curve_id none
                  (config.name ++ " limits") with
              | .error e => .error e
              | .ok limit_condition =>
                  .ok (([("limit_max", max_curve),
                    ("limit_min", min_curve)], limit_condition), m2)
      | some vlc =>
          let idm3 := _get_next_curve_id m2
          let velocity_limit_curve_id := idm3.1
          let m3 := idm3.2
          match _calculate_velocity_limit_from_leader rpi m3 vlc with
          | .error e => .error e
          | .ok velocity_limit_value =>
              match create_stroke_curve rcos rsin rpi
                  velocity_limit_curve_id m3.defaultMotionTime 10
                  (some velocity_limit_value) 100 "velocity" "forward_only"
                  (config.name ++ " velocity limit (based on leader)") with
              | .error e => .error e
              | .ok velocity_curve =>
                  match _strip_direction_signs (α := α) config.direction with
                  | .error e => .error e
                  | .ok limit_direction =>
                      match create_limit_condition (α := α) config.part_id
                          limit_direction max_curve_id min_curve_id
                          (some velocity_limit_curve_id)
                          (config.name ++ " limits") with
                      | .error e => .error e
                      | .ok limit_condition =>
                          .ok (([("limit_max", max_curve),
                            ("limit_min", min_curve),
                            ("velocity_limit", velocity_curve)],
                            limit_condition), m3)

/-- `_create_load_application_condition`. -/
def _create_load_application_condition (m : ToolConditionManager α)
    (config : ToolConditionConfig α) :
    Except (ToolError α)
      ((List (String × DefineCurve α) × List (String × ToolCondition α)) ×
        ToolConditionManager α) :=
  let idm := _get_next_curve_id m
  let preload_curve_id := idm.1
  let m1 := idm.2
  let preload_curve :=
    create_preload_curve rcos rpi preload_curve_id (1 / 50) 10 100
      (config.name ++ " preload curve")
  match create_rigid_preload config.part_id preload_curve_id
      config.load_amount config.direction config.name with
  | .error e => .error e
  | .ok load_condition =>
      match config.position_limits with
      | none =>
          .ok (([("preload", preload_curve)],
            [("load", ToolCondition.load load_condition)]), m1)
      | some _ =>
          match _create_position_limits rcos rsin rpi m1 config with
          | .error e => .error e
          | .ok lcm =>
              .ok ((("preload", preload_curve) :: lcm.1.1,
                [("load", ToolCondition.load load_condition),
                  ("limits", ToolCondition.stoppers lcm.1.2)]), lcm.2)

/-- `_create_following_motion_condition`. -/
def _create_following_motion_condition (m : ToolConditionManager α)
    (config : ToolConditionConfig α) :
    Except (ToolError α)
      ((List (String × DefineCurve α) × List (String × ToolCondition α)) ×
        ToolConditionManager α) :=
  match config.following_config with
  | none => .error .missingFollowingConfig
  | some following =>
      match dictLookup following.leader_pid m.leader_curves with
      | none => .error (.leaderCurveNotFound following.leader_pid)
      | some leader_curve =>
          let idm := _get_next_curve_id m
          let following_lcid := idm.1
          let m1 := idm.2
          match following.follow_mode with
          | .DISPLACEMENT =>
              match create_threshold_following_curve following_lcid
                  following.threshold_displacement leader_curve.curves
                  (config.name ++ " following displacement curve") with
              | .error e => .error e
              | .ok following_curve =>
                  match create_stroke_condition config.part_id
                      following_lcid config.direction 1 2 config.name with
                  | .error e => .error e
                  | .ok condition =>
                      .ok (([("following", following_curve)],
                        [("following", ToolCondition.motion condition)]), m1)
          | .VELOCITY =>
              match _create_velocity_following_curve following_lcid
                  following.threshold_displacement leader_curve.curves
                  (config.name ++ " following velocity curve") with
              | .error e => .error e
              | .ok following_curve =>
                  match create_stroke_condition config.part_id
                      following_lcid config.direction 1 0 config.name with
                  | .error e => .error e
                  | .ok condition =>
                      .ok (([("following", following_curve)],
                        [("following", ToolCondition.motion condition)]), m1)

/-- `_create_forced_motion_condition`. -/
def _create_forced_motion_condition (m : ToolConditionManager α)
    (config : ToolConditionConfig α) :
    Except (ToolError α)
      ((List (String × DefineCurve α) × List (String × ToolCondition α)) ×
        ToolConditionManager α) :=
  match config.following_config with
  | some _ => _create_following_motion_condition m config
  | none =>
      match config.motion_control_type with
      | some .DISPLACEMENT => _create_displacement_control rcos rsin rpi m config
      | some .VELOCITY => _create_velocity_control rcos rsin rpi m config
      | none => .error .missingMotionControlType

/-- `create_tool_condition`: dispatch on the condition type (the Python
`else` branch is unreachable for the two-valued enum). -/
def create_tool_condition (m : ToolConditionManager α)
    (config : ToolConditionConfig α) :
    Except (ToolError α)
      ((List (String × DefineCurve α) × List (String × ToolCondition α)) ×
        ToolConditionManager α) :=
  match config.condition_type with
  | .FORCED_MOTION => _create_forced_motion_condition rcos rsin rpi m config
  | .LOAD_APPLICATION =>
      _create_load_application_condition rcos rsin rpi m config

/-- `_sort_configs_by_dependency`: stable partition, leaders first. -/
def _sort_configs_by_dependency (configs : List (ToolConditionConfig α)) :
    List (ToolConditionConfig α) :=
  let isFollower := fun c : ToolConditionConfig α =>
    c.condition_type = ConditionType.FORCED_MOTION ∧
      c.following_config.isSome = true
  let leaders := configs.filter fun c => ¬ isFollower c
  let followers := configs.filter fun c => isFollower c
  leaders ++ followers

/-- `config.name.lower().replace(" ", "_")`: the result-dictionary key. -/
def normKey (config : ToolConditionConfig α) : String :=
  pyReplaceChar (pyLower config.name) ' ' '_'

/-- The `for config in sorted_configs` loop of
`create_tool_set_conditions`: thread the manager state and assign
`results[tool_name] = …` for each config in order. -/
def toolSetLoop (acc : List (String ×
      (List (String × DefineCurve α) × List (String × ToolCondition α))))
    (m : ToolConditionManager α) :
    List (ToolConditionConfig α) →
    Except (ToolError α)
      (List (String ×
        (List (String × DefineCurve α) × List (String × ToolCondition α))) ×
        ToolConditionManager α)
  | [] => .ok (acc, m)
  | config :: rest =>
      match create_tool_condition rcos rsin rpi m config with
      | .error e => .error e
      | .ok rm =>
          toolSetLoop (dictUpsert (normKey config) rm.1 acc) rm.2 rest

/-- `create_tool_set_conditions`: process in dependency order, keying
the result dict by the normalised tool name. -/
def create_tool_set_conditions (m : ToolConditionManager α)
    (tool_configs : List (ToolConditionConfig α)) :
    Except (ToolError α)
      (List (String ×
        (List (String × DefineCurve α) × List (String × ToolCondition α))) ×
        ToolConditionManager α) :=
  toolSetLoop rcos rsin rpi [] m (_sort_configs_by_dependency tool_configs)

/-- Specification-side companion of `toolSetLoop` that keeps every
`(key, result)` assignment instead of collapsing duplicate keys. -/
def pairsLoop (acc : List (String ×
      (List (String × DefineCurve α) × List (String × ToolCondition α))))
    (m : ToolConditionManager α) :
    List (ToolConditionConfig α) →
    Except (ToolError α)
      (List (String ×
        (List (String × DefineCurve α) × List (String × ToolCondition α))) ×
        ToolConditionManager α)
  | [] => .ok (acc, m)
  | config :: rest =>
      match create_tool_condition rcos rsin rpi m config with
      | .error e => .error e
      | .ok rm =>
          pairsLoop (acc ++ [(normKey config, rm.1)]) rm.2 rest

/-- Specification-side companion of `create_tool_set_conditions`: the
per-config `(key, result)` pairs in processing order, before the Python
dict collapses duplicate keys. -/
def processedPairs (m : ToolConditionManager α)
    (tool_configs : List (ToolConditionConfig α)) :
    Except (ToolError α)
      (List (String ×
        (List (String × DefineCurve α) × List (String × ToolCondition α))) ×
        ToolConditionManager α) :=
  pairsLoop rcos rsin rpi [] m (_sort_configs_by_dependency tool_configs)

/-- Repeated curve-ID allocation: the IDs handed out by `n` successive
calls to `_get_next_curve_id`. -/
def allocCurveIds (m : ToolConditionManager α) : ℕ → List ℤ
  | 0 => []
  | n + 1 =>
      let idm := _get_next_curve_id m
      idm.1 :: allocCurveIds idm.2 n

end Curves

/-! ### `src/core/export/id_manager.py` -/

/-- The mutable state of an `IDManager`. -/
structure IDManager where
  _workpiece_pid_counter : ℤ
  _tool_pid_base : ℤ
  _mid_counter : ℤ
  _rigid_mid_counter : ℤ
  _part_to_material : List (ℤ × ℤ)
  _part_to_section : List (ℤ × ℤ)
  _material_preset_to_mid : List (String × ℤ)
  _rigid_constraint_to_mid : List (String × ℤ)
deriving DecidableEq, Repr

/-- `IDManager.__init__`. -/
def IDManager.init : IDManager :=
  ⟨1, 1100, 1, 9000, [], [], [], []⟩

/-- `get_next_workpiece_pid`. -/
def IDManager.get_next_workpiece_pid (m : IDManager) : ℤ × IDManager :=
  (m._workpiece_pid_counter,
    { m with _workpiece_pid_counter := m._workpiece_pid_counter + 1 })

/-- `get_tool_pid`. -/
def IDManager.get_tool_pid (m : IDManager) (step_order tool_index : ℤ) :
    ℤ :=
  m._tool_pid_base + step_order * 100 + (tool_index + 1)

/-- `get_next_mid`. -/
def IDManager.get_next_mid (m : IDManager) : ℤ × IDManager :=
  (m._mid_counter, { m with _mid_counter := m._mid_counter + 1 })

/-- `get_next_rigid_mid`. -/
def IDManager.get_next_rigid_mid (m : IDManager) : ℤ × IDManager :=
  (m._rigid_mid_counter,
    { m with _rigid_mid_counter := m._rigid_mid_counter + 1 })

/-- `get_or_create_material_id`: memoised allocation of normal material
IDs, returning `(mid, is_new)` and the updated manager. -/
def IDManager.get_or_create_material_id (m : IDManager)
    (material_preset : String) : (ℤ × Bool) × IDManager :=
  match dictLookup material_preset m._material_preset_to_mid with
  | some mid => ((mid, false), m)
  | none =>
      let midm := m.get_next_mid
      ((midm.1, true),
        { midm.2 with
          _material_preset_to_mid :=
            dictUpsert material_preset midm.1 midm.2._material_preset_to_mid })

/-- `get_or_create_rigid_material_id`: memoised allocation of rigid
material IDs. -/
def IDManager.get_or_create_rigid_material_id (m : IDManager)
    (constraint : String) : (ℤ × Bool) × IDManager :=
  match dictLookup constraint m._rigid_constraint_to_mid with
  | some mid => ((mid, false), m)
  | none =>
      let midm := m.get_next_rigid_mid
      ((midm.1, true),
        { midm.2 with
          _rigid_constraint_to_mid :=
            dictUpsert constraint midm.1 midm.2._rigid_constraint_to_mid })

/-- Invariant of the material-ID memoisation: every allocated ID is
below the counter and no two keys share an ID. -/
def IDManager.MatInv (m : IDManager) : Prop :=
  (∀ v ∈ m._material_preset_to_mid.map Prod.snd, v < m._mid_counter) ∧
    (m._material_preset_to_mid.map Prod.snd).Nodup

/-- Invariant of the rigid-material-ID memoisation. -/
def IDManager.RigidInv (m : IDManager) : Prop :=
  (∀ v ∈ m._rigid_constraint_to_mid.map Prod.snd,
      v < m._rigid_mid_counter) ∧
    (m._rigid_constraint_to_mid.map Prod.snd).Nodup

/-- One memoised-allocation call, for quantifying over every sequence of
`get_or_create_*` calls an `IDManager` can see. -/
inductive IdOp where
  | material (key : String)
  | rigid (key : String)
deriving DecidableEq, Repr

/-- Run a sequence of memoised-allocation calls. -/
def runIdOps (m : IDManager) : List IdOp → IDManager
  | [] => m
  | .material k :: rest => runIdOps (m.get_or_create_material_id k).2 rest
  | .rigid k :: rest => runIdOps (m.get_or_create_rigid_material_id k).2 rest

/-! ### Analysis-side definitions used to state the claims -/

section Analysis

variable {α : Type} [LinearOrderedField α]

/-- Segment `[i, i+1]` of the reference curve brackets the threshold:
`y[i] ≤ thr ≤ y[i+1]`. -/
def bracketAt (thr : α) (pts : List (α × α)) (i : ℕ) : Prop :=
  i + 1 < pts.length ∧ (pts.getD i (0, 0)).2 ≤ thr ∧
    thr ≤ (pts.getD (i + 1) (0, 0)).2

instance instDecidableBracketAt (thr : α) (pts : List (α × α)) (i : ℕ) :
    Decidable (bracketAt thr pts i) :=
  inferInstanceAs (Decidable (i + 1 < pts.length ∧
    (pts.getD i (0, 0)).2 ≤ thr ∧ thr ≤ (pts.getD (i + 1) (0, 0)).2))

/-- The crossing time interpolated on segment `[i, i+1]`, exactly the
formula of the specification:
`t_sw = t[i] + (thr − y[i]) / (y[i+1] − y[i]) · (t[i+1] − t[i])`. -/
def crossTime (thr : α) (pts : List (α × α)) (i : ℕ) : α :=
  let p := pts.getD i (0, 0)
  let q := pts.getD (i + 1) (0, 0)
  p.1 + (thr - p.2) / (q.2 - p.2) * (q.1 - p.1)

/-- What the specification promises of the curve built by
`create_threshold_following_curve` for crossing time `t_sw`: the call
succeeds, the rows are sorted by time, they are a permutation of the
zero-before / shifted-after transform of the reference samples with the
switch point `(t_sw, 0)` inserted when its time is new, the switch point
is present, and each sample time maps to `0` (before) or `y − thr`
(after). -/
def FollowCurveSpec (lcid : ℤ) (thr : α) (pts : List (α × α))
    (title : String) (t_sw : α) : Prop :=
  ∃ out, create_threshold_following_curve lcid thr pts title =
      Except.ok out ∧
    out.curves.Pairwise timeLE ∧
    out.curves.Perm
      ((pts.map fun p =>
          if p.1 ≤ t_sw then (p.1, (0 : α)) else (p.1, p.2 - thr)) ++
        (if t_sw ∈ pts.map Prod.fst then [] else [(t_sw, 0)])) ∧
    (t_sw, 0) ∈ out.curves ∧
    (∀ p ∈ pts, p.1 ≤ t_sw → (p.1, (0 : α)) ∈ out.curves) ∧
    (∀ p ∈ pts, t_sw < p.1 → (p.1, p.2 - thr) ∈ out.curves)

end Analysis

/-! ### Concrete inputs used by witnesses and counterexamples -/

/-- A curve title used in concrete instantiations. -/
def tTitle : String := "curve"

/-- The reference curve `t = [0,1,2,3]`, `y = [0,2,4,6]` of the
specification examples. -/
def exCurve : List (ℚ × ℚ) := [(0, 0), (1, 2), (2, 4), (3, 6)]

/-- A follower configuration referencing leader part 5, which has no
registered leader curve in a fresh manager. -/
def followerCfg : ToolConditionConfig ℚ :=
  { condition_type := .FORCED_MOTION
    part_id := 2
    direction := .str "+z"
    name := "follower"
    following_config := some ⟨5, 1, .DISPLACEMENT⟩ }

/-- A load-application configuration whose `load_amount` is zero. -/
def loadCfg : ToolConditionConfig ℚ :=
  { condition_type := .LOAD_APPLICATION
    part_id := 3
    direction := .str "+z"
    name := "pad"
    load_amount := some 0 }

/-- A constant-zero stand-in for `np.cos` / `np.sin` when instantiating
the manager over `ℚ` in claims that do not depend on the waveform
values. -/
def qzero : ℚ → ℚ := fun _ => 0

/-- First of two load configurations whose names normalise to the same
result key `"tool_a"`. -/
def toolACfg : ToolConditionConfig ℚ :=
  { condition_type := .LOAD_APPLICATION
    part_id := 1
    direction := .str "+z"
    name := "Tool A"
    load_amount := some 1 }

/-- Second configuration normalising to the key `"tool_a"`. -/
def toolBCfg : ToolConditionConfig ℚ :=
  { condition_type := .LOAD_APPLICATION
    part_id := 2
    direction := .str "-z"
    name := "tool a"
    load_amount := some 2 }

/-! ## Helper lemmas on the dict model -/

theorem dictLookup_upsert_self {κ β : Type} [DecidableEq κ] (k : κ) (v : β)
    (d : List (κ × β)) : dictLookup k (dictUpsert k v d) = some v := by
  induction d with
  | nil => simp [dictLookup, dictUpsert]
  | cons p rest ih =>
      obtain ⟨k', v'⟩ := p
      by_cases h : k' = k
      · subst h
        simp [dictLookup, dictUpsert]
      · simp [dictLookup, dictUpsert, h, ih]

theorem dictLookup_upsert_ne {κ β : Type} [DecidableEq κ] {k k' : κ}
    (v : β) (d : List (κ × β)) (hne : k' ≠ k) :
    dictLookup k (dictUpsert k' v d) = dictLookup k d := by
  induction d with
  | nil => simp [dictLookup, dictUpsert, hne]
  | cons p rest ih =>
      obtain ⟨k'', v''⟩ := p
      by_cases h : k'' = k'
      · subst h
        simp [dictLookup, dictUpsert, hne]
      · simp only [dictUpsert, if_neg h, dictLookup]
        by_cases h2 : k'' = k
        · simp [h2]
        · simp [h2, ih]

theorem dictLookup_eq_none_iff {κ β : Type} [DecidableEq κ] (k : κ)
    (d : List (κ × β)) :
    dictLookup k d = none ↔ k ∉ d.map Prod.fst := by
  induction d with
  | nil => simp [dictLookup]
  | cons p rest ih =>
      obtain ⟨k', v⟩ := p
      by_cases h : k' = k
      · subst h; simp [dictLookup]
      · simp [dictLookup, h, ih, Ne.symm h]

theorem dictLookup_mem {κ β : Type} [DecidableEq κ] {k : κ} {v : β}
    {d : List (κ × β)} (h : dictLookup k d = some v) : (k, v) ∈ d := by
  induction d with
  | nil => simp [dictLookup] at h
  | cons p rest ih =>
      obtain ⟨k', v'⟩ := p
      by_cases hk : k' = k
      · subst hk
        simp [dictLookup] at h
        simp [h]
      · simp only [dictLookup, if_neg hk] at h
        exact List.mem_cons_of_mem _ (ih h)

theorem dictUpsert_of_not_mem {κ β : Type} [DecidableEq κ] {k : κ} (v : β)
    {d : List (κ × β)} (h : k ∉ d.map Prod.fst) :
    dictUpsert k v d = d ++ [(k, v)] := by
  induction d with
  | nil => simp [dictUpsert]
  | cons p rest ih =>
      obtain ⟨k', v'⟩ := p
      simp only [List.map_cons, List.mem_cons] at h
      push_neg at h
      obtain ⟨h1, h2⟩ := h
      simp [dictUpsert, (Ne.symm h1 : ¬ k' = k), ih h2]

theorem map_fst_dictUpsert_mem {κ β : Type} [DecidableEq κ] (k a : κ)
    (v : β) (d : List (κ × β)) :
    a ∈ (dictUpsert k v d).map Prod.fst ↔ a = k ∨ a ∈ d.map Prod.fst := by
  induction d with
  | nil => simp [dictUpsert]
  | cons p rest ih =>
      obtain ⟨k', v'⟩ := p
      by_cases h : k' = k
      · subst h; simp [dictUpsert]
      · simp only [dictUpsert, if_neg h, List.map_cons, List.mem_cons, ih]
        tauto

theorem length_dictUpsert_mem {κ β : Type} [DecidableEq κ] {k : κ} (v : β)
    {d : List (κ × β)} (h : k ∈ d.map Prod.fst) :
    (dictUpsert k v d).length = d.length := by
  induction d with
  | nil => simp at h
  | cons p rest ih =>
      obtain ⟨k', v'⟩ := p
      by_cases hk : k' = k
      · subst hk; simp [dictUpsert]
      · simp only [List.map_cons, List.mem_cons] at h
        rcases h with h | h
        · exact absurd h.symm hk
        · simp [dictUpsert, hk, ih h]

theorem length_dictUpsert_not_mem {κ β : Type} [DecidableEq κ] {k : κ}
    (v : β) {d : List (κ × β)} (h : k ∉ d.map Prod.fst) :
    (dictUpsert k v d).length = d.length + 1 := by
  rw [dictUpsert_of_not_mem v h]
  simp

/-! ## Helper lemmas on the crossing-time scan -/

section CrossingLemmas

variable {α : Type} [LinearOrderedField α]

theorem bracketAt_cons_succ (thr : α) (x : α × α) (l : List (α × α))
    (j : ℕ) : bracketAt thr (x :: l) (j + 1) ↔ bracketAt thr l j := by
  unfold bracketAt
  rw [List.getD_cons_succ, List.getD_cons_succ, List.length_cons]
  constructor
  · rintro ⟨h1, h2⟩; exact ⟨by omega, h2⟩
  · rintro ⟨h1, h2⟩; exact ⟨by omega, h2⟩

theorem crossTime_cons_succ (thr : α) (x : α × α) (l : List (α × α))
    (j : ℕ) : crossTime thr (x :: l) (j + 1) = crossTime thr l j := by
  unfold crossTime
  rw [List.getD_cons_succ, List.getD_cons_succ]

theorem findCrossing_eq_some (thr : α) (pts : List (α × α)) :
    ∀ i : ℕ, bracketAt thr pts i → (∀ j, j < i → ¬ bracketAt thr pts j) →
      findCrossing thr pts = some (crossTime thr pts i) := by
  induction pts with
  | nil =>
      intro i hbr _
      exact absurd hbr.1 (by simp)
  | cons p rest ih =>
      cases rest with
      | nil =>
          intro i hbr _
          have := hbr.1
          simp at this
      | cons q rest' =>
          intro i hbr hfirst
          obtain ⟨t0, y0⟩ := p
          obtain ⟨t1, y1⟩ := q
          match i with
          | 0 =>
              obtain ⟨-, h1, h2⟩ := hbr
              simp only [List.getD_cons_zero, List.getD_cons_succ] at h1 h2
              rw [findCrossing, if_pos ⟨h1, h2⟩]
              rfl
          | Nat.succ j =>
              have h0 : ¬ bracketAt thr ((t0, y0) :: (t1, y1) :: rest') 0 :=
                hfirst 0 (Nat.succ_pos j)
              have hcond : ¬ (y0 ≤ thr ∧ thr ≤ y1) := by
                intro hc
                exact h0 ⟨by simp, hc.1, hc.2⟩
              rw [findCrossing, if_neg hcond, crossTime_cons_succ]
              exact ih j ((bracketAt_cons_succ thr _ _ j).mp hbr)
                (fun j' hj' => fun hb =>
                  hfirst (j' + 1) (by omega)
                    ((bracketAt_cons_succ thr _ _ j').mpr hb))

theorem findCrossing_eq_none (thr : α) (pts : List (α × α))
    (hno : ∀ i, ¬ bracketAt thr pts i) : findCrossing thr pts = none := by
  induction pts with
  | nil => rfl
  | cons p rest ih =>
      cases rest with
      | nil => rfl
      | cons q rest' =>
          obtain ⟨t0, y0⟩ := p
          obtain ⟨t1, y1⟩ := q
          have hcond : ¬ (y0 ≤ thr ∧ thr ≤ y1) := by
            intro hc
            exact hno 0 ⟨by simp, hc.1, hc.2⟩
          rw [findCrossing, if_neg hcond]
          exact ih fun i hb =>
            hno (i + 1) ((bracketAt_cons_succ thr _ _ i).mpr hb)

theorem insertAt_perm (pos : ℕ) (x : α × α) (l : List (α × α)) :
    (insertAt pos x l).Perm (x :: l) := by
  unfold insertAt
  calc (l.take pos ++ x :: l.drop pos).Perm
        (x :: (l.take pos ++ l.drop pos)) := List.perm_middle
    _ = (x :: l) := by rw [List.take_append_drop]

theorem append_singleton_perm (x : α × α) (l : List (α × α)) :
    (l ++ [x]).Perm (x :: l) := by
  have h : (l ++ x :: ([] : List (α × α))).Perm (x :: (l ++ [])) :=
    List.perm_middle
  simpa using h

end CrossingLemmas

/-! ## C1: threshold-following curve construction -/

/-- C1. For every reference curve and threshold, when segment `[i, i+1]`
is the first to bracket the threshold, `create_threshold_following_curve`
interpolates the crossing time by the specified formula and returns a
time-sorted curve that is zero up to `t_sw`, follows `y − threshold`
afterwards, and contains the inserted switch point `(t_sw, 0)`. -/
theorem spec_C1 {α : Type} [LinearOrderedField α] (lcid : ℤ) (thr : α)
    (pts : List (α × α)) (title : String) (i : ℕ)
    (hbr : bracketAt thr pts i)
    (hfirst : ∀ j, j < i → ¬ bracketAt thr pts j) :
    findCrossing thr pts = some (crossTime thr pts i) ∧
      FollowCurveSpec lcid thr pts title (crossTime thr pts i) := by
  have hfc := findCrossing_eq_some thr pts i hbr hfirst
  refine ⟨hfc, ?_⟩
  unfold FollowCurveSpec
  set t_sw := crossTime thr pts i with ht_sw
  set base : List (α × α) := pts.map fun p =>
    if p.1 ≤ t_sw then (p.1, (0 : α)) else (p.1, p.2 - thr) with hbase
  set withSw : List (α × α) :=
    if t_sw ∈ pts.map Prod.fst then base
    else
      insertAt
        (pyInsertPos pts.length ((pts.filter fun p => t_sw < p.1).length))
        (t_sw, 0) base with hwithSw
  have hcreate : create_threshold_following_curve lcid thr pts title =
      Except.ok ⟨lcid, 0, sortByTime withSw, title⟩ := by
    unfold create_threshold_following_curve
    rw [hfc]
  refine ⟨⟨lcid, 0, sortByTime withSw, title⟩, hcreate, ?_, ?_, ?_, ?_, ?_⟩
  · exact List.sorted_insertionSort timeLE withSw
  · have h1 : (sortByTime withSw).Perm withSw :=
      List.perm_insertionSort timeLE withSw
    have h2 : withSw.Perm
        (base ++ if t_sw ∈ pts.map Prod.fst then [] else [(t_sw, 0)]) := by
      rw [hwithSw]
      by_cases hmem : t_sw ∈ pts.map Prod.fst
      · simp [hmem]
      · rw [if_neg hmem, if_neg hmem]
        exact (insertAt_perm _ _ _).trans
          (append_singleton_perm (t_sw, 0) base).symm
    exact h1.trans h2
  · have h1 : (sortByTime withSw).Perm withSw :=
      List.perm_insertionSort timeLE withSw
    rw [h1.mem_iff, hwithSw]
    by_cases hmem : t_sw ∈ pts.map Prod.fst
    · rw [if_pos hmem]
      obtain ⟨p, hp, hp1⟩ := List.mem_map.mp hmem
      rw [hbase]
      exact List.mem_map.mpr ⟨p, hp, by simp [hp1]⟩
    · rw [if_neg hmem]
      exact ((insertAt_perm _ _ _).mem_iff).mpr (List.mem_cons_self _ _)
  · intro p hp hle
    have h1 : (sortByTime withSw).Perm withSw :=
      List.perm_insertionSort timeLE withSw
    rw [h1.mem_iff, hwithSw]
    have hmemb : (p.1, (0 : α)) ∈ base := by
      rw [hbase]
      exact List.mem_map.mpr ⟨p, hp, by simp [hle]⟩
    by_cases hmem : t_sw ∈ pts.map Prod.fst
    · rw [if_pos hmem]; exact hmemb
    · rw [if_neg hmem]
      exact ((insertAt_perm _ _ _).mem_iff).mpr
        (List.mem_cons_of_mem _ hmemb)
  · intro p hp hlt
    have h1 : (sortByTime withSw).Perm withSw :=
      List.perm_insertionSort timeLE withSw
    rw [h1.mem_iff, hwithSw]
    have hmemb : (p.1, p.2 - thr) ∈ base := by
      rw [hbase]
      exact List.mem_map.mpr ⟨p, hp, by simp [not_le.mpr hlt]⟩
    by_cases hmem : t_sw ∈ pts.map Prod.fst
    · rw [if_pos hmem]; exact hmemb
    · rw [if_neg hmem]
      exact ((insertAt_perm _ _ _).mem_iff).mpr
        (List.mem_cons_of_mem _ hmemb)

/-- C1 witness: for `t = [0,1,2,3]`, `y = [0,2,4,6]`, threshold 3, the
crossing time is `1.5` and the constructed curve satisfies the
specification at `t_sw = 1.5`. -/
theorem spec_C1_witness :
    findCrossing (3 : ℚ) exCurve = some (3 / 2) ∧
      FollowCurveSpec 9001 (3 : ℚ) exCurve tTitle (3 / 2) := by
  have h := spec_C1 9001 (3 : ℚ) exCurve tTitle 1 (by decide)
    (by decide)
  have hct : crossTime (3 : ℚ) exCurve 1 = 3 / 2 := by
    simp only [crossTime, exCurve, List.getD_cons_succ, List.getD_cons_zero]
    norm_num
  rw [hct] at h
  exact h

/-! ## C4: unreachable thresholds -/

section MaxLemmas

variable {α : Type} [LinearOrderedField α]

theorem foldl_max_facts (xs : List α) :
    ∀ a : α, a ≤ xs.foldl max a ∧ (∀ x ∈ xs, x ≤ xs.foldl max a) ∧
      (xs.foldl max a = a ∨ xs.foldl max a ∈ xs) := by
  induction xs with
  | nil => intro a; simp
  | cons b xs ih =>
      intro a
      obtain ⟨h1, h2, h3⟩ := ih (max a b)
      refine ⟨le_trans (le_max_left a b) h1, ?_, ?_⟩
      · intro x hx
        rcases List.mem_cons.mp hx with rfl | hx
        · exact le_trans (le_max_right a x) h1
        · exact h2 x hx
      · rcases h3 with h | h
        · rcases max_choice a b with hm | hm
          · left; rw [List.foldl_cons, h, hm]
          · right; rw [List.foldl_cons, h, hm]
            exact List.mem_cons_self _ _
        · right; exact List.mem_cons_of_mem _ h

theorem listMax_spec (l : List α) (hne : l ≠ []) :
    ∃ mx, listMax l = some mx ∧ (∀ x ∈ l, x ≤ mx) ∧ mx ∈ l := by
  cases l with
  | nil => exact absurd rfl hne
  | cons x xs =>
      obtain ⟨h1, h2, h3⟩ := foldl_max_facts xs x
      refine ⟨xs.foldl max x, rfl, ?_, ?_⟩
      · intro y hy
        rcases List.mem_cons.mp hy with rfl | hy
        · exact h1
        · exact h2 y hy
      · rcases h3 with h | h
        · rw [h]; exact List.mem_cons_self _ _
        · exact List.mem_cons_of_mem _ h

end MaxLemmas

/-- C4 (amended). For every reference curve and every threshold with no
bracketing segment, both following-curve constructions raise: the
displacement-mode error reports the threshold and the observed maximum
of the reference values, while the velocity-mode error reports only the
threshold (its message does not include the maximum). -/
theorem spec_C4 {α : Type} [LinearOrderedField α] (lcid : ℤ) (thr : α)
    (pts : List (α × α)) (title : String)
    (hno : ∀ i, i < pts.length → ¬ bracketAt thr pts i) (hne : pts ≠ []) :
    ∃ mx, listMax (pts.map Prod.snd) = some mx ∧ mx ∈ pts.map Prod.snd ∧
      (∀ p ∈ pts, p.2 ≤ mx) ∧
      create_threshold_following_curve lcid thr pts title =
        Except.error (.thresholdNotReached thr (some mx)) ∧
      _create_velocity_following_curve lcid thr pts title =
        Except.error (.thresholdNotReached thr none) := by
  have hno' : ∀ i, ¬ bracketAt thr pts i := by
    intro i
    by_cases h : i < pts.length
    · exact hno i h
    · intro hb
      have := hb.1
      omega
  have hfc := findCrossing_eq_none thr pts hno'
  have hmap : pts.map Prod.snd ≠ [] := by simpa using hne
  obtain ⟨mx, hmx, hle, hmem⟩ := listMax_spec _ hmap
  refine ⟨mx, hmx, hmem, ?_, ?_, ?_⟩
  · intro p hp
    exact hle _ (List.mem_map_of_mem _ hp)
  · unfold create_threshold_following_curve
    rw [hfc, hmx]
  · unfold _create_velocity_following_curve
    rw [hfc]

/-- C4 counterexample to the claim as stated: in the velocity follow
mode, the "threshold 100 not reached" error carries no observed maximum
(`refMax = none`), so it does not mention the curve maximum 6. -/
theorem spec_C4_counterexample :
    _create_velocity_following_curve 9001 (100 : ℚ) exCurve tTitle =
      Except.error (.thresholdNotReached 100 none) ∧
      ToolError.thresholdNotReached (100 : ℚ) none ≠
        ToolError.thresholdNotReached (100 : ℚ) (some 6) := by
  exact ⟨rfl, by decide⟩

/-- C4 witness: threshold 100 against the max-6 example curve — the
displacement-mode error mentions the maximum 6, the velocity-mode error
mentions none. -/
theorem spec_C4_witness :
    listMax (exCurve.map Prod.snd) = some (6 : ℚ) ∧
      create_threshold_following_curve 9001 (100 : ℚ) exCurve tTitle =
        Except.error (.thresholdNotReached 100 (some 6)) ∧
      _create_velocity_following_curve 9001 (100 : ℚ) exCurve tTitle =
        Except.error (.thresholdNotReached 100 none) := by
  obtain ⟨mx, hmx, -, -, h1, h2⟩ :=
    spec_C4 9001 (100 : ℚ) exCurve tTitle (by decide) (by decide)
  have h6 : listMax (exCurve.map Prod.snd) = some (6 : ℚ) := by decide
  rw [h6] at hmx
  obtain rfl := (Option.some.inj hmx).symm
  exact ⟨h6, h1, h2⟩

/-! ## C6: direction-string parsing -/

/-- C6 (amended). `Direction.from_string` accepts exactly the strings
whose whitespace-trimmed form has exactly 2 characters, the first
`'+'`/`'-'` and the second a case-insensitive axis letter (so padded
strings such as `" +x "` are accepted as well); every other input is a
parse error. The spec's concrete examples hold as stated. -/
theorem spec_C6 :
    (∀ s : String,
      (∃ d, Direction.from_string s = Except.ok d) ↔
        ∃ c0 c1, (pyStrip s).data = [c0, c1] ∧ (c0 = '+' ∨ c0 = '-') ∧
          (c1.toLower = 'x' ∨ c1.toLower = 'y' ∨ c1.toLower = 'z')) ∧
    Direction.from_string "-z" = Except.ok ⟨Axis.Z, Sign.NEGATIVE⟩ ∧
    (Direction.mk Axis.Z Sign.NEGATIVE).dof_number = 3 ∧
    Direction.scale_factor (α := ℚ) ⟨Axis.Z, Sign.NEGATIVE⟩ = -1 ∧
    Direction.from_string "+x" = Except.ok ⟨Axis.X, Sign.POSITIVE⟩ ∧
    (Direction.mk Axis.X Sign.POSITIVE).dof_number = 1 ∧
    Direction.scale_factor (α := ℚ) ⟨Axis.X, Sign.POSITIVE⟩ = 1 ∧
    Direction.from_string "zz" = Except.error (.invalidSign 'z') ∧
    Direction.from_string "x" = Except.error (.invalidLength "x") ∧
    Direction.from_string "*x" = Except.error (.invalidSign '*') := by
  refine ⟨?_, rfl, rfl, rfl, rfl, rfl, rfl, rfl, rfl, rfl⟩
  intro s
  constructor
  · rintro ⟨d, hd⟩
    rcases hdata : (pyStrip s).data with _ | ⟨c0, _ | ⟨c1, _ | ⟨c2, rest⟩⟩⟩
    · simp only [Direction.from_string, hdata] at hd
      exact Except.noConfusion hd
    · simp only [Direction.from_string, hdata] at hd
      exact Except.noConfusion hd
    · simp only [Direction.from_string, hdata] at hd
      refine ⟨c0, c1, rfl, ?_⟩
      split at hd
      · simp at hd
      case _ sign heq =>
        split at hd
        case _ hx =>
          refine ⟨?_, Or.inl hx⟩
          split at heq
          · exact Or.inl rfl
          · exact Or.inr rfl
          · simp at heq
        case _ hy =>
          refine ⟨?_, Or.inr (Or.inl hy)⟩
          split at heq
          · exact Or.inl rfl
          · exact Or.inr rfl
          · simp at heq
        case _ hz =>
          refine ⟨?_, Or.inr (Or.inr hz)⟩
          split at heq
          · exact Or.inl rfl
          · exact Or.inr rfl
          · simp at heq
        case _ => simp at hd
    · simp only [Direction.from_string, hdata] at hd
      exact Except.noConfusion hd
  · rintro ⟨c0, c1, hdata, hsign, haxis⟩
    have hsigneq : ∃ sign,
        (match c0 with
          | '+' => Except.ok Sign.POSITIVE
          | '-' => Except.ok Sign.NEGATIVE
          | c => Except.error (DirectionError.invalidSign c)) =
          Except.ok sign := by
      rcases hsign with rfl | rfl
      · exact ⟨Sign.POSITIVE, rfl⟩
      · exact ⟨Sign.NEGATIVE, rfl⟩
    obtain ⟨sign, hsigneq⟩ := hsigneq
    rcases haxis with hax | hax | hax
    · exact ⟨⟨Axis.X, sign⟩,
        by simp only [Direction.from_string, hdata, hsigneq, hax]⟩
    · exact ⟨⟨Axis.Y, sign⟩,
        by simp only [Direction.from_string, hdata, hsigneq, hax]⟩
    · exact ⟨⟨Axis.Z, sign⟩,
        by simp only [Direction.from_string, hdata, hsigneq, hax]⟩

/-- C6 counterexample to the claim as stated: `" +x "` has 4 characters
yet is accepted, because the implementation strips whitespace before
checking the length. -/
theorem spec_C6_counterexample :
    Direction.from_string " +x " = Except.ok ⟨Axis.X, Sign.POSITIVE⟩ ∧
      " +x ".length ≠ 2 := by
  exact ⟨rfl, by decide⟩

/-! ## C5: half-cosine waveform shape -/

section HalfCosine

theorem linspace_length {α : Type} [LinearOrderedField α] (a b : α)
    (n : ℕ) : (linspace a b n).length = n := by
  unfold linspace
  split
  · simp [*]
  · simp

theorem linspace_head (T : ℝ) (n : ℕ) (hn : 1 ≤ n) :
    (linspace (0 : ℝ) T n).head? = some 0 := by
  unfold linspace
  split
  · rfl
  · cases n with
    | zero => omega
    | succ m =>
        rw [List.range_succ_eq_map]
        simp

theorem linspace_mem {T : ℝ} (hT : 0 < T) {n : ℕ} {x : ℝ}
    (hx : x ∈ linspace (0 : ℝ) T n) : 0 ≤ x ∧ x ≤ T := by
  unfold linspace at hx
  split at hx
  · simp at hx
    exact ⟨le_of_eq hx.symm, by rw [hx]; exact hT.le⟩
  · obtain ⟨i, hi, rfl⟩ := List.mem_map.mp hx
    rw [List.mem_range] at hi
    have hn2 : 2 ≤ n := by omega
    have hden : (0 : ℝ) < (n : ℝ) - 1 := by
      have : (2 : ℝ) ≤ (n : ℝ) := by exact_mod_cast hn2
      linarith
    constructor
    · have : (0 : ℝ) ≤ (T - 0) * (i : ℝ) / ((n : ℝ) - 1) :=
        div_nonneg (mul_nonneg (by linarith) (Nat.cast_nonneg i)) hden.le
      linarith
    · have hiT : (i : ℝ) ≤ (n : ℝ) - 1 := by
        have : (i : ℝ) + 1 ≤ (n : ℝ) := by exact_mod_cast hi
        linarith
      have : (T - 0) * (i : ℝ) / ((n : ℝ) - 1) ≤ T := by
        rw [div_le_iff hden]
        nlinarith
      linarith

theorem linspace_chain (T : ℝ) (hT : 0 ≤ T) (n : ℕ) :
    (linspace (0 : ℝ) T n).Chain' (· ≤ ·) := by
  unfold linspace
  split
  · simp
  · rw [List.chain'_map]
    cases n with
    | zero => simp
    | succ m =>
        rw [List.chain'_range_succ]
        intro k hk
        show (0 : ℝ) + (T - 0) * (k : ℝ) / (((m + 1 : ℕ) : ℝ) - 1) ≤
          0 + (T - 0) * ((k.succ : ℕ) : ℝ) / (((m + 1 : ℕ) : ℝ) - 1)
        have hm : 1 ≤ m := by omega
        have hmr : (1 : ℝ) ≤ (m : ℝ) := by exact_mod_cast hm
        have hden : (0 : ℝ) < ((m + 1 : ℕ) : ℝ) - 1 := by
          push_cast
          linarith
        have hnum : (T - 0) * (k : ℝ) ≤ (T - 0) * ((k.succ : ℕ) : ℝ) := by
          have hk1 : (k : ℝ) ≤ ((k.succ : ℕ) : ℝ) := by
            push_cast
            linarith
          nlinarith
        have h2 := (div_le_div_right hden).mpr hnum
        linarith

theorem chain'_le_map {l : List ℝ} {s : Set ℝ} {f : ℝ → ℝ}
    (hchain : l.Chain' (· ≤ ·)) (hmem : ∀ x ∈ l, x ∈ s)
    (hf : MonotoneOn f s) : (l.map f).Chain' (· ≤ ·) := by
  induction l with
  | nil => simp
  | cons x l ih =>
      cases l with
      | nil => simp
      | cons y l' =>
          rw [List.chain'_cons] at hchain
          obtain ⟨hxy, hchain'⟩ := hchain
          rw [List.map_cons, List.map_cons, List.chain'_cons]
          refine ⟨hf (hmem x (by simp)) (hmem y (by simp)) hxy, ?_⟩
          have := ih hchain' fun z hz => hmem z (List.mem_cons_of_mem _ hz)
          rw [List.map_cons] at this
          exact this

theorem half_cos_le_one (T u : ℝ) :
    1 / 2 * (1 - Real.cos (Real.pi * u / T)) ≤ 1 := by
  have := Real.neg_one_le_cos (Real.pi * u / T)
  linarith

theorem half_cos_monotoneOn {T : ℝ} (hT : 0 < T) :
    MonotoneOn (fun t => 1 / 2 * (1 - Real.cos (Real.pi * t / T)))
      (Set.Icc 0 T) := by
  intro a ha b hb hab
  have hmem : ∀ c : ℝ, c ∈ Set.Icc (0 : ℝ) T →
      Real.pi * c / T ∈ Set.Icc 0 Real.pi := by
    intro c hc
    constructor
    · exact div_nonneg (mul_nonneg Real.pi_pos.le hc.1) hT.le
    · rw [div_le_iff hT]
      nlinarith [Real.pi_pos, hc.2]
  have hle : Real.pi * a / T ≤ Real.pi * b / T :=
    (div_le_div_right hT).mpr (mul_le_mul_of_nonneg_left hab Real.pi_pos.le)
  have hcos := Real.strictAntiOn_cos.antitoneOn (hmem a ha) (hmem b hb) hle
  show 1 / 2 * (1 - Real.cos (Real.pi * a / T)) ≤
    1 / 2 * (1 - Real.cos (Real.pi * b / T))
  linarith

/-- C5 (amended). For every `ramp_time > 0`, every `hold_time`, and
every number of points `≥ 1`, the half-cosine value sequence is
non-decreasing, starts at `0.0`, equals `1.0` at every sample time
`≥ ramp_time`, and ends with the two explicit trailing points
`(ramp_time, 1.0)` and `(ramp_time + hold_time, 1.0)` appended after
the `n` ramp samples. -/
theorem zip_self_map (l : List ℝ) (f : ℝ → ℝ) :
    l.zip (l.map f) = l.map fun x => (x, f x) := by
  induction l with
  | nil => rfl
  | cons x l ih => simp [ih]

theorem spec_C5 (T h : ℝ) (n : ℕ) (hT : 0 < T) (hn : 1 ≤ n) :
    (generate_half_cosine_curve Real.cos Real.pi T h n).2.Chain' (· ≤ ·) ∧
    (generate_half_cosine_curve Real.cos Real.pi T h n).2.head? = some 0 ∧
    (∀ p ∈ (generate_half_cosine_curve Real.cos Real.pi T h n).1.zip
        (generate_half_cosine_curve Real.cos Real.pi T h n).2,
      T ≤ p.1 → p.2 = 1) ∧
    (generate_half_cosine_curve Real.cos Real.pi T h n).1.drop n =
      [T, T + h] ∧
    (generate_half_cosine_curve Real.cos Real.pi T h n).2.drop n =
      [1, 1] ∧
    (T, (1 : ℝ)) ∈ (generate_half_cosine_curve Real.cos Real.pi T h n).1.zip
      (generate_half_cosine_curve Real.cos Real.pi T h n).2 := by
  have hlen : (linspace (0 : ℝ) T n).length = n := linspace_length 0 T n
  have hfT : (1 : ℝ) / 2 * (1 - Real.cos (Real.pi * T / T)) = 1 := by
    rw [mul_div_assoc, div_self hT.ne', mul_one, Real.cos_pi]
    norm_num
  have hf0 : (1 : ℝ) / 2 * (1 - Real.cos (Real.pi * 0 / T)) = 0 := by
    rw [mul_zero, zero_div, Real.cos_zero]
    norm_num
  have hc1 : (generate_half_cosine_curve Real.cos Real.pi T h n).1 =
      linspace (0 : ℝ) T n ++ [T, T + h] := rfl
  have hc2 : (generate_half_cosine_curve Real.cos Real.pi T h n).2 =
      (linspace (0 : ℝ) T n).map
        (fun t => 1 / 2 * (1 - Real.cos (Real.pi * t / T))) ++ [1, 1] := rfl
  have hzip : (generate_half_cosine_curve Real.cos Real.pi T h n).1.zip
      (generate_half_cosine_curve Real.cos Real.pi T h n).2 =
      (linspace (0 : ℝ) T n).map
        (fun x => (x, 1 / 2 * (1 - Real.cos (Real.pi * x / T)))) ++
        [(T, 1), (T + h, 1)] := by
    rw [hc1, hc2, List.zip_append (by simp), zip_self_map]
    rfl
  refine ⟨?_, ?_, ?_, ?_, ?_, ?_⟩
  · rw [hc2, List.chain'_append]
    refine ⟨?_, by simp [List.chain'_pair], ?_⟩
    · exact chain'_le_map (linspace_chain T hT.le n)
        (fun x hx => (Set.mem_Icc).mpr (linspace_mem hT hx))
        (half_cos_monotoneOn hT)
    · intro x hx y hy
      obtain ⟨t, -, rfl⟩ :=
        List.mem_map.mp (List.mem_of_mem_getLast? hx)
      simp only [List.head?_cons, Option.mem_def, Option.some.injEq] at hy
      rw [← hy]
      exact half_cos_le_one T t
  · rw [hc2]
    obtain ⟨l', hl'⟩ : ∃ l', linspace (0 : ℝ) T n = 0 :: l' := by
      have hh := linspace_head T n hn
      cases hcase : linspace (0 : ℝ) T n with
      | nil => rw [hcase] at hh; simp at hh
      | cons a l' =>
          rw [hcase] at hh
          simp at hh
          exact ⟨l', by rw [hh]⟩
    rw [hl', List.map_cons, List.cons_append, List.head?_cons]
    show some ((1 : ℝ) / 2 * (1 - Real.cos (Real.pi * 0 / T))) = some 0
    rw [hf0]
  · intro p hp hTp
    rw [hzip] at hp
    rcases List.mem_append.mp hp with hp | hp
    · obtain ⟨x, hx, rfl⟩ := List.mem_map.mp hp
      have hb := linspace_mem hT hx
      have hxT : x = T := le_antisymm hb.2 hTp
      subst hxT
      exact hfT
    · simp only [List.mem_cons, List.mem_singleton, List.not_mem_nil,
        or_false] at hp
      rcases hp with rfl | rfl
      · rfl
      · rfl
  · rw [hc1]
    exact List.drop_left' hlen
  · rw [hc2]
    exact List.drop_left' (by simp [hlen])
  · rw [hzip]
    refine List.mem_append_right _ ?_
    simp

end HalfCosine

/-- C5 counterexample to the claim as stated: with `num_pts = 0` (and
`ramp_time = 1 > 0`) the value sequence is `[1, 1]`, so it does not
start at `0.0`. -/
theorem spec_C5_counterexample :
    (generate_half_cosine_curve Real.cos Real.pi (1 : ℝ) 1 0).2.head? =
      some 1 ∧ (1 : ℝ) ≠ 0 := by
  constructor
  · simp [generate_half_cosine_curve, linspace]
  · norm_num

/-! ## C8: curve-ID counter -/

theorem allocCurveIds_eq {α : Type} [LinearOrderedField α] :
    ∀ (n : ℕ) (m : ToolConditionManager α), allocCurveIds m n =
      (List.range n).map fun i : ℕ => m.curve_id_counter + 1 + (i : ℤ) := by
  intro n
  induction n with
  | zero => intro m; rfl
  | succ k ih =>
      intro m
      rw [allocCurveIds, ih, List.range_succ_eq_map, List.map_cons,
        List.map_map]
      congr 1
      · simp [_get_next_curve_id]
      · apply List.map_congr_left
        intro i _
        simp only [_get_next_curve_id, Function.comp]
        push_cast
        ring

/-- C8. The curve-ID counter starts at the fixed base 9000, every
allocation returns and stores the next integer, and the sequence of IDs
allocated from a fresh manager is `9001, 9002, …` — strictly increasing
with no reuse. -/
theorem spec_C8 (gmt : Option ℚ) (n : ℕ) :
    (initManager gmt).curve_id_counter = 9000 ∧
    (∀ m : ToolConditionManager ℚ,
      (_get_next_curve_id m).1 = m.curve_id_counter + 1 ∧
      (_get_next_curve_id m).2.curve_id_counter = m.curve_id_counter + 1) ∧
    allocCurveIds (initManager gmt) n =
      (List.range n).map (fun i : ℕ => 9001 + (i : ℤ)) ∧
    (allocCurveIds (initManager gmt) n).Chain' (· < ·) ∧
    (allocCurveIds (initManager gmt) n).Nodup := by
  have he : allocCurveIds (initManager gmt) n =
      (List.range n).map (fun i : ℕ => 9001 + (i : ℤ)) := by
    rw [allocCurveIds_eq n (initManager gmt)]
    apply List.map_congr_left
    intro i _
    show (9000 : ℤ) + 1 + (i : ℤ) = 9001 + (i : ℤ)
    ring
  have hchain : (allocCurveIds (initManager gmt) n).Chain' (· < ·) := by
    rw [he, List.chain'_map]
    cases n with
    | zero => simp
    | succ m =>
        rw [List.chain'_range_succ]
        intro k _
        have : ((k.succ : ℕ) : ℤ) = (k : ℤ) + 1 := by push_cast; ring
        omega
  refine ⟨rfl, fun m => ⟨rfl, rfl⟩, he, hchain, ?_⟩
  have hpw : (allocCurveIds (initManager gmt) n).Pairwise (· < ·) :=
    List.chain'_iff_pairwise.mp hchain
  exact hpw.imp ne_of_lt

/-! ## C7: memoised material-ID allocation -/

theorem nodup_snd_inj {κ β : Type} {d : List (κ × β)}
    (h : (d.map Prod.snd).Nodup) {k1 k2 : κ} {v : β}
    (h1 : (k1, v) ∈ d) (h2 : (k2, v) ∈ d) : k1 = k2 := by
  induction d with
  | nil => simp at h1
  | cons p rest ih =>
      rw [List.map_cons, List.nodup_cons] at h
      rcases List.mem_cons.mp h1 with rfl | h1'
      · rcases List.mem_cons.mp h2 with h2h | h2'
        · exact ((Prod.mk.injEq _ _ _ _).mp h2h).1.symm
        · exact absurd (List.mem_map_of_mem Prod.snd h2') h.1
      · rcases List.mem_cons.mp h2 with rfl | h2'
        · exact absurd (List.mem_map_of_mem Prod.snd h1') h.1
        · exact ih h.2 h1' h2'

theorem gocm_lookup_some (m : IDManager) (k : String) (mid : ℤ)
    (h : dictLookup k m._material_preset_to_mid = some mid) :
    m.get_or_create_material_id k = ((mid, false), m) := by
  unfold IDManager.get_or_create_material_id
  rw [h]

theorem gocm_lookup_none (m : IDManager) (k : String)
    (h : dictLookup k m._material_preset_to_mid = none) :
    m.get_or_create_material_id k =
      ((m._mid_counter, true),
        { m with
          _mid_counter := m._mid_counter + 1
          _material_preset_to_mid :=
            dictUpsert k m._mid_counter m._material_preset_to_mid }) := by
  unfold IDManager.get_or_create_material_id IDManager.get_next_mid
  rw [h]

theorem gocr_lookup_some (m : IDManager) (k : String) (mid : ℤ)
    (h : dictLookup k m._rigid_constraint_to_mid = some mid) :
    m.get_or_create_rigid_material_id k = ((mid, false), m) := by
  unfold IDManager.get_or_create_rigid_material_id
  rw [h]

theorem gocr_lookup_none (m : IDManager) (k : String)
    (h : dictLookup k m._rigid_constraint_to_mid = none) :
    m.get_or_create_rigid_material_id k =
      ((m._rigid_mid_counter, true),
        { m with
          _rigid_mid_counter := m._rigid_mid_counter + 1
          _rigid_constraint_to_mid :=
            dictUpsert k m._rigid_mid_counter
              m._rigid_constraint_to_mid }) := by
  unfold IDManager.get_or_create_rigid_material_id IDManager.get_next_rigid_mid
  rw [h]

theorem matInv_upsert {m : IDManager} {k : String}
    (hInv : m.MatInv)
    (h : dictLookup k m._material_preset_to_mid = none) :
    IDManager.MatInv
      { m with
        _mid_counter := m._mid_counter + 1
        _material_preset_to_mid :=
          dictUpsert k m._mid_counter m._material_preset_to_mid } := by
  obtain ⟨hbound, hnodup⟩ := hInv
  have hnot := (dictLookup_eq_none_iff k _).mp h
  rw [IDManager.MatInv]
  simp only [dictUpsert_of_not_mem _ hnot, List.map_append]
  constructor
  · intro v hv
    rcases List.mem_append.mp hv with hv | hv
    · exact lt_trans (hbound v hv) (by omega)
    · simp at hv
      omega
  · rw [List.nodup_append]
    refine ⟨hnodup, by simp, ?_⟩
    intro v hv hv'
    simp at hv'
    exact absurd (hbound v hv) (by omega)

theorem rigidInv_upsert {m : IDManager} {k : String}
    (hInv : m.RigidInv)
    (h : dictLookup k m._rigid_constraint_to_mid = none) :
    IDManager.RigidInv
      { m with
        _rigid_mid_counter := m._rigid_mid_counter + 1
        _rigid_constraint_to_mid :=
          dictUpsert k m._rigid_mid_counter m._rigid_constraint_to_mid } := by
  obtain ⟨hbound, hnodup⟩ := hInv
  have hnot := (dictLookup_eq_none_iff k _).mp h
  rw [IDManager.RigidInv]
  simp only [dictUpsert_of_not_mem _ hnot, List.map_append]
  constructor
  · intro v hv
    rcases List.mem_append.mp hv with hv | hv
    · exact lt_trans (hbound v hv) (by omega)
    · simp at hv
      omega
  · rw [List.nodup_append]
    refine ⟨hnodup, by simp, ?_⟩
    intro v hv hv'
    simp at hv'
    exact absurd (hbound v hv) (by omega)

theorem gocm_preserves (m : IDManager) (k : String) :
    (m.get_or_create_material_id k).2._rigid_constraint_to_mid =
      m._rigid_constraint_to_mid ∧
    (m.get_or_create_material_id k).2._rigid_mid_counter =
      m._rigid_mid_counter ∧
    (m.MatInv → (m.get_or_create_material_id k).2.MatInv) ∧
    (∀ k' v, dictLookup k' m._material_preset_to_mid = some v →
      dictLookup k'
        (m.get_or_create_material_id k).2._material_preset_to_mid =
        some v) := by
  cases hl : dictLookup k m._material_preset_to_mid with
  | some mid =>
      rw [gocm_lookup_some m k mid hl]
      exact ⟨rfl, rfl, id, fun _ _ h => h⟩
  | none =>
      rw [gocm_lookup_none m k hl]
      refine ⟨rfl, rfl, fun hInv => matInv_upsert hInv hl, ?_⟩
      intro k' v hv
      have hkk' : k ≠ k' := by
        intro hh
        rw [hh, hv] at hl
        exact Option.noConfusion hl
      show dictLookup k' (dictUpsert k _ _) = some v
      rw [dictLookup_upsert_ne _ _ hkk']
      exact hv

theorem gocr_preserves (m : IDManager) (k : String) :
    (m.get_or_create_rigid_material_id k).2._material_preset_to_mid =
      m._material_preset_to_mid ∧
    (m.get_or_create_rigid_material_id k).2._mid_counter =
      m._mid_counter ∧
    (m.RigidInv → (m.get_or_create_rigid_material_id k).2.RigidInv) ∧
    (∀ k' v, dictLookup k' m._rigid_constraint_to_mid = some v →
      dictLookup k'
        (m.get_or_create_rigid_material_id k).2._rigid_constraint_to_mid =
        some v) := by
  cases hl : dictLookup k m._rigid_constraint_to_mid with
  | some mid =>
      rw [gocr_lookup_some m k mid hl]
      exact ⟨rfl, rfl, id, fun _ _ h => h⟩
  | none =>
      rw [gocr_lookup_none m k hl]
      refine ⟨rfl, rfl, fun hInv => rigidInv_upsert hInv hl, ?_⟩
      intro k' v hv
      have hkk' : k ≠ k' := by
        intro hh
        rw [hh, hv] at hl
        exact Option.noConfusion hl
      show dictLookup k' (dictUpsert k _ _) = some v
      rw [dictLookup_upsert_ne _ _ hkk']
      exact hv

theorem runIdOps_preserves (ops : List IdOp) :
    ∀ m : IDManager,
      (m.MatInv → (runIdOps m ops).MatInv) ∧
      (m.RigidInv → (runIdOps m ops).RigidInv) ∧
      (∀ k v, dictLookup k m._material_preset_to_mid = some v →
        dictLookup k (runIdOps m ops)._material_preset_to_mid = some v) ∧
      (∀ k v, dictLookup k m._rigid_constraint_to_mid = some v →
        dictLookup k (runIdOps m ops)._rigid_constraint_to_mid = some v) := by
  induction ops with
  | nil => exact fun m => ⟨id, id, fun _ _ h => h, fun _ _ h => h⟩
  | cons op rest ih =>
      intro m
      cases op with
      | material key =>
          obtain ⟨hrc, hrcnt, hmat, hpers⟩ := gocm_preserves m key
          obtain ⟨ihm, ihr, ihp, ihq⟩ := ih (m.get_or_create_material_id key).2
          refine ⟨fun hInv => ihm (hmat hInv), ?_, ?_, ?_⟩
          · intro hInv
            apply ihr
            rw [IDManager.RigidInv, hrc, hrcnt]
            exact hInv
          · intro k v hv
            exact ihp k v (hpers k v hv)
          · intro k v hv
            apply ihq
            rw [hrc]
            exact hv
      | rigid key =>
          obtain ⟨hmc, hmcnt, hrig, hpers⟩ := gocr_preserves m key
          obtain ⟨ihm, ihr, ihp, ihq⟩ := ih (m.get_or_create_rigid_material_id key).2
          refine ⟨?_, fun hInv => ihr (hrig hInv), ?_, ?_⟩
          · intro hInv
            apply ihm
            rw [IDManager.MatInv, hmc, hmcnt]
            exact hInv
          · intro k v hv
            apply ihp
            rw [hmc]
            exact hv
          · intro k v hv
            exact ihq k v (hpers k v hv)

theorem matInv_init : IDManager.init.MatInv := by
  constructor <;> simp [IDManager.init]

theorem rigidInv_init : IDManager.init.RigidInv := by
  constructor <;> simp [IDManager.init]

/-- C7. On any reachable `IDManager`, the first `get_or_create` call for
a key allocates a fresh ID (not yet bound to any key) with
`is_new = true`; every later call with the same key — after arbitrary
further allocations — returns the same ID with `is_new = false`; and
calls for two different keys return two different IDs. Both the normal
and the rigid material allocator satisfy this. -/
theorem spec_C7 (ops : List IdOp) (m : IDManager)
    (hm : m = runIdOps IDManager.init ops) :
    (∀ k, dictLookup k m._material_preset_to_mid = none →
      (m.get_or_create_material_id k).1.2 = true ∧
      (m.get_or_create_material_id k).1.1 ∉
        m._material_preset_to_mid.map Prod.snd ∧
      ∀ ops', ((runIdOps (m.get_or_create_material_id k).2
          ops').get_or_create_material_id k).1 =
        ((m.get_or_create_material_id k).1.1, false)) ∧
    (∀ k k', k ≠ k' →
      ((m.get_or_create_material_id k).2.get_or_create_material_id k').1.1 ≠
        (m.get_or_create_material_id k).1.1) ∧
    (∀ k, dictLookup k m._rigid_constraint_to_mid = none →
      (m.get_or_create_rigid_material_id k).1.2 = true ∧
      (m.get_or_create_rigid_material_id k).1.1 ∉
        m._rigid_constraint_to_mid.map Prod.snd ∧
      ∀ ops', ((runIdOps (m.get_or_create_rigid_material_id k).2
          ops').get_or_create_rigid_material_id k).1 =
        ((m.get_or_create_rigid_material_id k).1.1, false)) ∧
    (∀ k k', k ≠ k' →
      ((m.get_or_create_rigid_material_id k).2.get_or_create_rigid_material_id
          k').1.1 ≠
        (m.get_or_create_rigid_material_id k).1.1) := by
  have hMat : m.MatInv := by
    rw [hm]
    exact (runIdOps_preserves ops IDManager.init).1 matInv_init
  have hRig : m.RigidInv := by
    rw [hm]
    exact (runIdOps_preserves ops IDManager.init).2.1 rigidInv_init
  refine ⟨?_, ?_, ?_, ?_⟩
  · intro k hk
    have heq := gocm_lookup_none m k hk
    have hid1 : (m.get_or_create_material_id k).1.1 = m._mid_counter := by
      rw [heq]
    refine ⟨by rw [heq], ?_, ?_⟩
    · intro hmem
      rw [hid1] at hmem
      exact lt_irrefl _ (hMat.1 _ hmem)
    · intro ops'
      have hlook : dictLookup k
          (m.get_or_create_material_id k).2._material_preset_to_mid =
          some ((m.get_or_create_material_id k).1.1) := by
        rw [heq]
        exact dictLookup_upsert_self _ _ _
      have hpers := ((runIdOps_preserves ops' _).2.2.1) k _ hlook
      rw [gocm_lookup_some _ k _ hpers]
  · intro k k' hkk'
    cases hl1 : dictLookup k m._material_preset_to_mid with
    | none =>
        have heq1 := gocm_lookup_none m k hl1
        have hid1 : (m.get_or_create_material_id k).1.1 = m._mid_counter := by
          rw [heq1]
        have hl2' : dictLookup k'
            (m.get_or_create_material_id k).2._material_preset_to_mid =
            dictLookup k' m._material_preset_to_mid := by
          rw [heq1]
          exact dictLookup_upsert_ne _ _ hkk'
        cases hl2 : dictLookup k' m._material_preset_to_mid with
        | none =>
            have heq2 := gocm_lookup_none _ k' (hl2'.trans hl2)
            have hid2 : ((m.get_or_create_material_id
                k).2.get_or_create_material_id k').1.1 =
                (m.get_or_create_material_id k).2._mid_counter := by
              rw [heq2]
            have hcnt : (m.get_or_create_material_id k).2._mid_counter =
                m._mid_counter + 1 := by
              rw [heq1]
            rw [hid1, hid2, hcnt]
            omega
        | some v =>
            have heq2 := gocm_lookup_some _ k' v (hl2'.trans hl2)
            have hid2 : ((m.get_or_create_material_id
                k).2.get_or_create_material_id k').1.1 = v := by
              rw [heq2]
            have hvlt := hMat.1 v
              (List.mem_map_of_mem Prod.snd (dictLookup_mem hl2))
            rw [hid1, hid2]
            omega
    | some v1 =>
        have heq1 := gocm_lookup_some m k v1 hl1
        have hid1 : (m.get_or_create_material_id k).1.1 = v1 := by
          rw [heq1]
        have hm2 : (m.get_or_create_material_id k).2 = m := by
          rw [heq1]
        cases hl2 : dictLookup k' m._material_preset_to_mid with
        | none =>
            have heq2 := gocm_lookup_none m k' hl2
            have hid2 : ((m.get_or_create_material_id
                k).2.get_or_create_material_id k').1.1 = m._mid_counter := by
              rw [hm2, heq2]
            have hvlt := hMat.1 v1
              (List.mem_map_of_mem Prod.snd (dictLookup_mem hl1))
            rw [hid1, hid2]
            omega
        | some v2 =>
            have heq2 := gocm_lookup_some m k' v2 hl2
            have hid2 : ((m.get_or_create_material_id
                k).2.get_or_create_material_id k').1.1 = v2 := by
              rw [hm2, heq2]
            rw [hid1, hid2]
            intro hv
            exact hkk'
              (nodup_snd_inj hMat.2 (dictLookup_mem hl1)
                (hv ▸ dictLookup_mem hl2))
  · intro k hk
    have heq := gocr_lookup_none m k hk
    have hid1 : (m.get_or_create_rigid_material_id k).1.1 =
        m._rigid_mid_counter := by
      rw [heq]
    refine ⟨by rw [heq], ?_, ?_⟩
    · intro hmem
      rw [hid1] at hmem
      exact lt_irrefl _ (hRig.1 _ hmem)
    · intro ops'
      have hlook : dictLookup k
          (m.get_or_create_rigid_material_id k).2._rigid_constraint_to_mid =
          some ((m.get_or_create_rigid_material_id k).1.1) := by
        rw [heq]
        exact dictLookup_upsert_self _ _ _
      have hpers := ((runIdOps_preserves ops' _).2.2.2) k _ hlook
      rw [gocr_lookup_some _ k _ hpers]
  · intro k k' hkk'
    cases hl1 : dictLookup k m._rigid_constraint_to_mid with
    | none =>
        have heq1 := gocr_lookup_none m k hl1
        have hid1 : (m.get_or_create_rigid_material_id k).1.1 =
            m._rigid_mid_counter := by
          rw [heq1]
        have hl2' : dictLookup k'
            (m.get_or_create_rigid_material_id
              k).2._rigid_constraint_to_mid =
            dictLookup k' m._rigid_constraint_to_mid := by
          rw [heq1]
          exact dictLookup_upsert_ne _ _ hkk'
        cases hl2 : dictLookup k' m._rigid_constraint_to_mid with
        | none =>
            have heq2 := gocr_lookup_none _ k' (hl2'.trans hl2)
            have hid2 : ((m.get_or_create_rigid_material_id
                k).2.get_or_create_rigid_material_id k').1.1 =
                (m.get_or_create_rigid_material_id
                  k).2._rigid_mid_counter := by
              rw [heq2]
            have hcnt : (m.get_or_create_rigid_material_id
                k).2._rigid_mid_counter = m._rigid_mid_counter + 1 := by
              rw [heq1]
            rw [hid1, hid2, hcnt]
            omega
        | some v =>
            have heq2 := gocr_lookup_some _ k' v (hl2'.trans hl2)
            have hid2 : ((m.get_or_create_rigid_material_id
                k).2.get_or_create_rigid_material_id k').1.1 = v := by
              rw [heq2]
            have hvlt := hRig.1 v
              (List.mem_map_of_mem Prod.snd (dictLookup_mem hl2))
            rw [hid1, hid2]
            omega
    | some v1 =>
        have heq1 := gocr_lookup_some m k v1 hl1
        have hid1 : (m.get_or_create_rigid_material_id k).1.1 = v1 := by
          rw [heq1]
        have hm2 : (m.get_or_create_rigid_material_id k).2 = m := by
          rw [heq1]
        cases hl2 : dictLookup k' m._rigid_constraint_to_mid with
        | none =>
            have heq2 := gocr_lookup_none m k' hl2
            have hid2 : ((m.get_or_create_rigid_material_id
                k).2.get_or_create_rigid_material_id k').1.1 =
                m._rigid_mid_counter := by
              rw [hm2, heq2]
            have hvlt := hRig.1 v1
              (List.mem_map_of_mem Prod.snd (dictLookup_mem hl1))
            rw [hid1, hid2]
            omega
        | some v2 =>
            have heq2 := gocr_lookup_some m k' v2 hl2
            have hid2 : ((m.get_or_create_rigid_material_id
                k).2.get_or_create_rigid_material_id k').1.1 = v2 := by
              rw [hm2, heq2]
            rw [hid1, hid2]
            intro hv
            exact hkk'
              (nodup_snd_inj hRig.2 (dictLookup_mem hl1)
                (hv ▸ dictLookup_mem hl2))

/-- C7 witness: the spec's `"SPCC"` / `"SUS304"` examples on a fresh
manager — second `"SPCC"` call reuses the same ID with `is_new = false`,
`"SUS304"` gets a different ID. -/
theorem spec_C7_witness :
    (IDManager.init.get_or_create_material_id "SPCC").1.2 = true ∧
    ((IDManager.init.get_or_create_material_id
        "SPCC").2.get_or_create_material_id "SPCC").1 =
      ((IDManager.init.get_or_create_material_id "SPCC").1.1, false) ∧
    ((IDManager.init.get_or_create_material_id
        "SPCC").2.get_or_create_material_id "SUS304").1.1 ≠
      (IDManager.init.get_or_create_material_id "SPCC").1.1 := by
  have h := spec_C7 [] IDManager.init rfl
  obtain ⟨h1, h2, -, -⟩ := h
  obtain ⟨ha, -, hc⟩ := h1 "SPCC" rfl
  exact ⟨ha, hc [], h2 "SPCC" "SUS304" (by decide)⟩

/-! ## C9: scale-factor validation -/

/-- C9. Any call of `create_rigid_preload` or `create_stroke_condition`
with `sf ≤ 0` raises a `ValueError` and emits no keyword record; any
successful call has `sf > 0` and its emitted record's `sf` equals the
argument times the direction's `±1.0` scale factor. Consequently a
load-application config with non-positive `load_amount` always aborts. -/
theorem spec_C9 {α : Type} [LinearOrderedField α] :
    (∀ (pid lcid : ℤ) (sf : α) (dof : DirInput) (title : String),
      sf ≤ 0 →
      create_rigid_preload pid lcid (some sf) dof title =
        Except.error (.nonPositiveSf sf)) ∧
    (∀ (pid lcid : ℤ) (dof : DirInput) (sf : α) (vad : ℤ) (title : String),
      sf ≤ 0 →
      create_stroke_condition pid lcid dof sf vad title =
        Except.error (.nonPositiveSf sf)) ∧
    (∀ (pid lcid : ℤ) (sf : α) (dof : DirInput) (title : String)
      (r : LoadRigidBody α),
      create_rigid_preload pid lcid (some sf) dof title = Except.ok r →
      0 < sf ∧ ∃ d, _resolve_direction (α := α) dof = Except.ok d ∧
        r.sf = sf * d.scale_factor ∧
        (Direction.scale_factor (α := α) d = 1 ∨
          Direction.scale_factor (α := α) d = -1)) ∧
    (∀ (pid lcid : ℤ) (dof : DirInput) (sf : α) (vad : ℤ) (title : String)
      (r : BoundaryPrescribedMotion α),
      create_stroke_condition pid lcid dof sf vad title = Except.ok r →
      0 < sf ∧ ∃ d, _resolve_direction (α := α) dof = Except.ok d ∧
        r.sf = sf * d.scale_factor ∧
        (Direction.scale_factor (α := α) d = 1 ∨
          Direction.scale_factor (α := α) d = -1)) ∧
    (∀ (rcos rsin : α → α) (rpi : α) (m : ToolConditionManager α)
      (config : ToolConditionConfig α) (la : α),
      config.load_amount = some la → la ≤ 0 →
      _create_load_application_condition rcos rsin rpi m config =
        Except.error (.nonPositiveSf la)) := by
  have hpre : ∀ (pid lcid : ℤ) (sf : α) (dof : DirInput) (title : String),
      sf ≤ 0 →
      create_rigid_preload pid lcid (some sf) dof title =
        Except.error (.nonPositiveSf sf) := by
    intro pid lcid sf dof title h
    simp only [create_rigid_preload, if_pos h]
  refine ⟨hpre, ?_, ?_, ?_, ?_⟩
  · intro pid lcid dof sf vad title h
    simp only [create_stroke_condition, if_pos h]
  · intro pid lcid sf dof title r h
    simp only [create_rigid_preload] at h
    split at h
    · exact absurd h (by simp)
    case _ hle =>
      split at h
      · exact Except.noConfusion h
      case _ d heq =>
        obtain rfl := (Except.ok.inj h).symm
        refine ⟨not_le.mp hle, d, heq, rfl, ?_⟩
        obtain ⟨ax, sg⟩ := d
        cases sg
        · exact Or.inl rfl
        · exact Or.inr rfl
  · intro pid lcid dof sf vad title r h
    simp only [create_stroke_condition] at h
    split at h
    · exact absurd h (by simp)
    case _ hle =>
      split at h
      · exact Except.noConfusion h
      case _ d heq =>
        split at h
        · exact Except.noConfusion h
        · obtain rfl := (Except.ok.inj h).symm
          refine ⟨not_le.mp hle, d, heq, rfl, ?_⟩
          obtain ⟨ax, sg⟩ := d
          cases sg
          · exact Or.inl rfl
          · exact Or.inr rfl
  · intro rcos rsin rpi m config la hla hle
    have herr : ∀ lcid : ℤ,
        create_rigid_preload config.part_id lcid config.load_amount
          config.direction config.name =
          Except.error (.nonPositiveSf la) := by
      intro lcid
      rw [hla]
      exact hpre _ _ _ _ _ hle
    simp only [_create_load_application_condition, herr]

/-- C9 witness: `sf = 0` aborts both builders; `load_amount = 0` aborts
the load-application path; a successful `sf = 1` call on direction
`"+z"` emits `sf × (+1.0)`. -/
theorem spec_C9_witness :
    create_rigid_preload (α := ℚ) 3 9001 (some 0) (DirInput.str "+z")
      tTitle = Except.error (.nonPositiveSf 0) ∧
    create_stroke_condition (α := ℚ) 3 9001 (DirInput.str "+z") 0 2
      tTitle = Except.error (.nonPositiveSf 0) ∧
    ((0 : ℚ) < 1 ∧ ∃ d, _resolve_direction (α := ℚ) (DirInput.str "+z") =
        Except.ok d ∧
      (LoadRigidBody.mk 3 9001 3 ((1 : ℚ) * 1) tTitle).sf =
        1 * Direction.scale_factor (α := ℚ) d ∧
      (Direction.scale_factor (α := ℚ) d = 1 ∨
        Direction.scale_factor (α := ℚ) d = -1)) ∧
    _create_load_application_condition qzero qzero 0 (initManager none)
      loadCfg = Except.error (.nonPositiveSf 0) := by
  obtain ⟨h1, h2, h3, -, h5⟩ := spec_C9 (α := ℚ)
  exact ⟨h1 3 9001 0 (.str "+z") tTitle (le_refl 0),
    h2 3 9001 (.str "+z") 0 2 tTitle (le_refl 0),
    h3 3 9001 1 (.str "+z") tTitle ⟨3, 9001, 3, (1 : ℚ) * 1, tTitle⟩ rfl,
    h5 qzero qzero 0 (initManager none) loadCfg 0 rfl (le_refl 0)⟩

/-! ## C3: dependency-ordering errors -/

theorem calc_limit_no_leader {α : Type} [LinearOrderedField α] (rpi : α)
    (m : ToolConditionManager α) (vc : VelocityLimitConfig α)
    (h : dictLookup vc.leader_part_id m.leader_motion_data = none) :
    _calculate_velocity_limit_from_leader rpi m vc =
      Except.error (.leaderMotionDataNotFound vc.leader_part_id) := by
  unfold _calculate_velocity_limit_from_leader
  rw [h]

/-- C3. A following request whose leader part has no registered leader
curve, and a velocity-limit request whose leader part has no registered
kinematics, both make the manager raise a hard error — the result is
always `Except.error`, never a default. -/
theorem spec_C3 {α : Type} [LinearOrderedField α] (rcos rsin : α → α)
    (rpi : α) :
    (∀ (m : ToolConditionManager α) (config : ToolConditionConfig α)
      (f : FollowingConfig α),
      config.condition_type = ConditionType.FORCED_MOTION →
      config.following_config = some f →
      dictLookup f.leader_pid m.leader_curves = none →
      create_tool_condition rcos rsin rpi m config =
        Except.error (.leaderCurveNotFound f.leader_pid)) ∧
    (∀ (m : ToolConditionManager α) (vc : VelocityLimitConfig α),
      dictLookup vc.leader_part_id m.leader_motion_data = none →
      _calculate_velocity_limit_from_leader rpi m vc =
        Except.error (.leaderMotionDataNotFound vc.leader_part_id)) ∧
    (∀ (m : ToolConditionManager α) (config : ToolConditionConfig α)
      (limits : PositionLimits α) (vlc : VelocityLimitConfig α),
      config.position_limits = some limits →
      config.velocity_limit_config = some vlc →
      dictLookup vlc.leader_part_id m.leader_motion_data = none →
      _create_position_limits rcos rsin rpi m config =
        Except.error (.leaderMotionDataNotFound vlc.leader_part_id)) := by
  refine ⟨?_, ?_, ?_⟩
  · intro m config f hct hfol hlook
    simp only [create_tool_condition, hct, _create_forced_motion_condition,
      hfol, _create_following_motion_condition, hlook]
  · intro m vc hlook
    exact calc_limit_no_leader rpi m vc hlook
  · intro m config limits vlc hpos hvlc hlook
    have hcalc : _calculate_velocity_limit_from_leader rpi
        (_get_next_curve_id
          (_get_next_curve_id (_get_next_curve_id m).2).2).2 vlc =
        Except.error (.leaderMotionDataNotFound vlc.leader_part_id) :=
      calc_limit_no_leader rpi _ vlc hlook
    simp only [_create_position_limits, hpos, hvlc, hcalc]

/-- C3 witness: a fresh manager rejects a follower referencing leader
part 5 and a velocity-limit request referencing leader part 7. -/
theorem spec_C3_witness :
    create_tool_condition qzero qzero 0 (initManager none) followerCfg =
      Except.error (.leaderCurveNotFound 5) ∧
    _calculate_velocity_limit_from_leader (0 : ℚ) (initManager none)
      ⟨7, 11 / 10⟩ =
      Except.error (.leaderMotionDataNotFound 7) := by
  obtain ⟨h1, h2, -⟩ := spec_C3 (α := ℚ) qzero qzero 0
  exact ⟨h1 (initManager none) followerCfg ⟨5, 1, .DISPLACEMENT⟩ rfl rfl rfl,
    h2 (initManager none) ⟨7, 11 / 10⟩ rfl⟩

/-! ## C2: velocity-limit derivation from leader kinematics -/

theorem calc_limit_displacement {α : Type} [LinearOrderedField α]
    (rpi : α) (m : ToolConditionManager α) (vc : VelocityLimitConfig α)
    (d : LeaderMotionData α) (a : α)
    (hlook : dictLookup vc.leader_part_id m.leader_motion_data = some d)
    (hkind : d.type = "displacement") (ha : d.amount = some a) :
    _calculate_velocity_limit_from_leader rpi m vc =
      Except.ok (|rpi / (2 * d.motion_time) * a| * vc.limit_multiplier) := by
  simp only [_calculate_velocity_limit_from_leader, hlook]
  rw [if_pos hkind, ha]

theorem calc_limit_velocity {α : Type} [LinearOrderedField α]
    (rpi : α) (m : ToolConditionManager α) (vc : VelocityLimitConfig α)
    (d : LeaderMotionData α) (a : α)
    (hlook : dictLookup vc.leader_part_id m.leader_motion_data = some d)
    (hkind : d.type = "velocity") (ha : d.amount = some a) :
    _calculate_velocity_limit_from_leader rpi m vc =
      Except.ok (|a| * vc.limit_multiplier) := by
  simp only [_calculate_velocity_limit_from_leader, hlook]
  rw [if_neg (by rw [hkind]; decide), if_pos hkind, ha]

theorem displacement_control_eq {α : Type} [LinearOrderedField α]
    (rcos rsin : α → α) (rpi : α) (m : ToolConditionManager α)
    (config : ToolConditionConfig α) (sc : DefineCurve α)
    (bc : BoundaryPrescribedMotion α)
    (hmc : config.motion_control_type = some MotionControlType.DISPLACEMENT)
    (h1 : create_stroke_curve rcos rsin rpi (m.curve_id_counter + 1)
      (pyOrD config.motion_time (m.global_motion_time.getD (1 / 2))) 10
      config.displacement_amount 100 "displacement"
      config.stroke_mode.value
      (config.name ++ " displacement curve") = Except.ok sc)
    (h2 : create_stroke_condition config.part_id (m.curve_id_counter + 1)
      config.direction 1 2 config.name = Except.ok bc) :
    _create_displacement_control rcos rsin rpi m config =
      Except.ok (([("displacement", sc)],
        [("motion", ToolCondition.motion bc)]),
        { global_motion_time := m.global_motion_time
          curve_id_counter := m.curve_id_counter + 1
          leader_curves := dictUpsert config.part_id sc m.leader_curves
          leader_motion_data := dictUpsert config.part_id
            ⟨"displacement", config.displacement_amount,
              pyOrD config.motion_time (m.global_motion_time.getD (1 / 2))⟩
            m.leader_motion_data }) := by
  unfold _create_displacement_control
  simp only [_get_next_curve_id, ToolConditionManager.defaultMotionTime]
  rw [h1]
  simp only [_store_leader_motion_data, hmc,
    ToolConditionManager.defaultMotionTime]
  rw [h2]

/-- C2. For a displacement-controlled leader the derived velocity limit
is `|π/(2·motion_time)·displacement_amount| × multiplier`, for a
velocity-controlled leader `|velocity_amount| × multiplier`; and the
end-to-end example — leader with displacement 50 over motion time 0.5,
then a multiplier-1.1 velocity-limit request — yields
`π/(2·0.5)·50·1.1 ≈ 172.79`. -/
theorem spec_C2 :
    (∀ (m : ToolConditionManager ℝ) (vc : VelocityLimitConfig ℝ)
      (d : LeaderMotionData ℝ) (a : ℝ),
      dictLookup vc.leader_part_id m.leader_motion_data = some d →
      d.amount = some a →
      (d.type = "displacement" →
        _calculate_velocity_limit_from_leader Real.pi m vc =
          Except.ok (|Real.pi / (2 * d.motion_time) * a| *
            vc.limit_multiplier)) ∧
      (d.type = "velocity" →
        _calculate_velocity_limit_from_leader Real.pi m vc =
          Except.ok (|a| * vc.limit_multiplier))) ∧
    (∃ r m1, create_tool_condition Real.cos Real.sin Real.pi
        (initManager none)
        { condition_type := .FORCED_MOTION
          part_id := 1
          direction := .str "+z"
          name := "leader"
          motion_control_type := some .DISPLACEMENT
          displacement_amount := some 50
          motion_time := some (1 / 2) } =
        Except.ok (r, m1) ∧
      ∃ v, _calculate_velocity_limit_from_leader Real.pi m1 ⟨1, 1.1⟩ =
          Except.ok v ∧
        v = Real.pi / (2 * (1 / 2)) * 50 * 1.1 ∧
        172.7 < v ∧ v < 172.8) := by
  constructor
  · intro m vc d a hlook ha
    exact ⟨fun hk => calc_limit_displacement Real.pi m vc d a hlook hk ha,
      fun hk => calc_limit_velocity Real.pi m vc d a hlook hk ha⟩
  · set cfg : ToolConditionConfig ℝ :=
      { condition_type := .FORCED_MOTION
        part_id := 1
        direction := .str "+z"
        name := "leader"
        motion_control_type := some .DISPLACEMENT
        displacement_amount := some 50
        motion_time := some (1 / 2) } with hcfg
    obtain ⟨sc, hsc⟩ : ∃ sc, create_stroke_curve Real.cos Real.sin Real.pi
        ((initManager (α := ℝ) none).curve_id_counter + 1)
        (pyOrD cfg.motion_time
          ((initManager (α := ℝ) none).global_motion_time.getD (1 / 2))) 10
        cfg.displacement_amount 100 "displacement" cfg.stroke_mode.value
        (cfg.name ++ " displacement curve") = Except.ok sc := ⟨_, rfl⟩
    have hbc : create_stroke_condition (α := ℝ) cfg.part_id
        ((initManager (α := ℝ) none).curve_id_counter + 1) cfg.direction
        1 2 cfg.name =
        Except.ok ⟨cfg.part_id,
          (initManager (α := ℝ) none).curve_id_counter + 1, 3, 1 * 1, 2,
          cfg.name⟩ := by
      unfold create_stroke_condition
      rw [if_neg (by norm_num : ¬ (1 : ℝ) ≤ 0)]
      rfl
    have hmain := displacement_control_eq Real.cos Real.sin Real.pi
      (initManager none) cfg sc _ rfl hsc hbc
    have hdisp : create_tool_condition Real.cos Real.sin Real.pi
        (initManager none) cfg =
        _create_displacement_control Real.cos Real.sin Real.pi
          (initManager none) cfg := rfl
    refine ⟨_, _, by rw [hdisp, hmain], ?_⟩
    have hmt : pyOrD (cfg.motion_time)
        ((initManager (α := ℝ) none).global_motion_time.getD (1 / 2)) =
        1 / 2 := by
      show pyOrD (some ((1 : ℝ) / 2)) ((1 : ℝ) / 2) = 1 / 2
      simp [pyOrD]
    have hlookM : dictLookup (1 : ℤ)
        (dictUpsert (1 : ℤ)
          (⟨"displacement", some 50,
            pyOrD cfg.motion_time
              ((initManager (α := ℝ) none).global_motion_time.getD
                (1 / 2))⟩ : LeaderMotionData ℝ) []) =
        some ⟨"displacement", some 50,
          pyOrD cfg.motion_time
            ((initManager (α := ℝ) none).global_motion_time.getD
              (1 / 2))⟩ := by
      exact dictLookup_upsert_self _ _ _
    have hcalc := calc_limit_displacement Real.pi
      { global_motion_time := (initManager (α := ℝ) none).global_motion_time
        curve_id_counter := (initManager (α := ℝ) none).curve_id_counter + 1
        leader_curves := dictUpsert cfg.part_id sc []
        leader_motion_data := dictUpsert cfg.part_id
          ⟨"displacement", cfg.displacement_amount,
            pyOrD cfg.motion_time
              ((initManager (α := ℝ) none).global_motion_time.getD
                (1 / 2))⟩ [] }
      ⟨1, 1.1⟩
      ⟨"displacement", some 50,
        pyOrD cfg.motion_time
          ((initManager (α := ℝ) none).global_motion_time.getD (1 / 2))⟩
      50 hlookM rfl rfl
    have hproj : (⟨"displacement", some 50,
        pyOrD cfg.motion_time
          ((initManager (α := ℝ) none).global_motion_time.getD
            (1 / 2))⟩ : LeaderMotionData ℝ).motion_time = 1 / 2 := hmt
    rw [hproj] at hcalc
    have hpos : (0 : ℝ) < Real.pi / (2 * (1 / 2)) * 50 := by
      positivity
    refine ⟨_, hcalc, ?_, ?_, ?_⟩
    · show |Real.pi / (2 * (1 / 2)) * 50| * (1.1 : ℝ) =
        Real.pi / (2 * (1 / 2)) * 50 * 1.1
      rw [abs_of_pos hpos]
    · show (172.7 : ℝ) < |Real.pi / (2 * (1 / 2)) * 50| * 1.1
      rw [abs_of_pos hpos]
      have h1 : Real.pi / (2 * (1 / 2)) * 50 * 1.1 = Real.pi * 55 := by
        norm_num
        ring
      rw [h1]
      have := Real.pi_gt_3141592
      nlinarith
    · show |Real.pi / (2 * (1 / 2)) * 50| * (1.1 : ℝ) < 172.8
      rw [abs_of_pos hpos]
      have h1 : Real.pi / (2 * (1 / 2)) * 50 * 1.1 = Real.pi * 55 := by
        norm_num
        ring
      rw [h1]
      have := Real.pi_lt_3141593
      nlinarith

/-- C2 witness: a leader registry entry `{displacement, 50, 0.5}` and a
multiplier-1.1 request produce `|π/(2·0.5)·50| × 1.1`. -/
theorem spec_C2_witness :
    _calculate_velocity_limit_from_leader Real.pi
      { global_motion_time := none
        curve_id_counter := 9001
        leader_curves := []
        leader_motion_data := [(1, ⟨"displacement", some 50, 1 / 2⟩)] }
      ⟨1, 1.1⟩ =
      Except.ok (|Real.pi / (2 * (1 / 2)) * 50| * 1.1) := by
  exact (spec_C2.1
    { global_motion_time := none
      curve_id_counter := 9001
      leader_curves := []
      leader_motion_data := [(1, ⟨"displacement", some 50, 1 / 2⟩)] }
    ⟨1, 1.1⟩ ⟨"displacement", some 50, 1 / 2⟩ 50 rfl rfl).1 rfl

/-! ## C10: result keys and duplicate-key overwriting -/

theorem length_filter_not_add {γ : Type} (l : List γ) (p : γ → Bool) :
    (l.filter fun a => !(p a)).length + (l.filter p).length = l.length := by
  induction l with
  | nil => rfl
  | cons x l ih =>
      by_cases h : p x = true
      · simp [List.filter_cons, h]
        omega
      · have h' : p x = false := by simpa using h
        simp [List.filter_cons, h']
        omega

theorem sort_configs_length {α : Type} [LinearOrderedField α]
    (cfgs : List (ToolConditionConfig α)) :
    (_sort_configs_by_dependency cfgs).length = cfgs.length := by
  unfold _sort_configs_by_dependency
  simp only [List.length_append, decide_not]
  exact length_filter_not_add cfgs _

theorem dictFromPairs_snoc {κ β : Type} [DecidableEq κ]
    (ps : List (κ × β)) (k : κ) (v : β) :
    dictFromPairs (ps ++ [(k, v)]) = dictUpsert k v (dictFromPairs ps) := by
  unfold dictFromPairs
  rw [List.foldl_append]
  rfl

theorem dictFromPairs_lookup {κ β : Type} [DecidableEq κ]
    (ps : List (κ × β)) (k : κ) :
    dictLookup k (dictFromPairs ps) =
      ((ps.filter fun p => p.1 = k).getLast?).map Prod.snd := by
  induction ps using List.reverseRecOn with
  | nil => rfl
  | append_singleton ps p ih =>
      obtain ⟨pk, pv⟩ := p
      rw [dictFromPairs_snoc, List.filter_append]
      by_cases h : pk = k
      · subst h
        rw [dictLookup_upsert_self]
        have hfil : [(pk, pv)].filter (fun q => q.1 = pk) = [(pk, pv)] := by
          simp [List.filter_cons]
        rw [hfil, List.getLast?_concat]
        rfl
      · rw [dictLookup_upsert_ne _ _ h]
        have hfil : [(pk, pv)].filter (fun q => q.1 = k) = [] := by
          simp [List.filter_cons, h]
        rw [hfil, List.append_nil]
        exact ih

theorem dictFromPairs_keys_mem {κ β : Type} [DecidableEq κ]
    (ps : List (κ × β)) (k : κ) :
    k ∈ (dictFromPairs ps).map Prod.fst ↔ k ∈ ps.map Prod.fst := by
  induction ps using List.reverseRecOn with
  | nil => simp [dictFromPairs]
  | append_singleton ps p ih =>
      obtain ⟨pk, pv⟩ := p
      rw [dictFromPairs_snoc, map_fst_dictUpsert_mem, ih,
        List.map_append]
      simp [or_comm]

theorem dictFromPairs_length {κ β : Type} [DecidableEq κ]
    (ps : List (κ × β)) :
    (dictFromPairs ps).length ≤ ps.length ∧
    (¬ (ps.map Prod.fst).Nodup →
      (dictFromPairs ps).length < ps.length) := by
  induction ps using List.reverseRecOn with
  | nil => simp [dictFromPairs]
  | append_singleton ps p ih =>
      obtain ⟨pk, pv⟩ := p
      rw [dictFromPairs_snoc]
      by_cases hmem : pk ∈ (dictFromPairs ps).map Prod.fst
      · have hlen := length_dictUpsert_mem pv hmem
        rw [hlen]
        have h1 := ih.1
        constructor
        · simp only [List.length_append, List.length_singleton]
          omega
        · intro _
          simp only [List.length_append, List.length_singleton]
          omega
      · have hlen := length_dictUpsert_not_mem pv hmem
        have hmem' : pk ∉ ps.map Prod.fst := fun hh =>
          hmem ((dictFromPairs_keys_mem ps pk).mpr hh)
        rw [hlen]
        have h1 := ih.1
        constructor
        · simp only [List.length_append, List.length_singleton]
          omega
        · intro hdup
          have hdup' : ¬ (ps.map Prod.fst).Nodup := by
            intro hnd
            apply hdup
            rw [List.map_append, List.nodup_append]
            refine ⟨hnd, by simp, ?_⟩
            intro a ha ha'
            simp only [List.map_cons, List.map_nil, List.mem_singleton]
              at ha'
            rw [ha'] at ha
            exact hmem' ha
          have h2 := ih.2 hdup'
          simp only [List.length_append, List.length_singleton]
          omega

theorem toolSetLoop_eq_pairsLoop {α : Type} [LinearOrderedField α]
    (rcos rsin : α → α) (rpi : α) :
    ∀ (cfgs : List (ToolConditionConfig α)) (acc) (m),
      toolSetLoop rcos rsin rpi (dictFromPairs acc) m cfgs =
        (pairsLoop rcos rsin rpi acc m cfgs).map
          (fun pm => (dictFromPairs pm.1, pm.2)) := by
  intro cfgs
  induction cfgs with
  | nil => intro acc m; rfl
  | cons c rest ih =>
      intro acc m
      cases hc : create_tool_condition rcos rsin rpi m c with
      | error e => simp only [toolSetLoop, pairsLoop, hc, Except.map]
      | ok rm =>
          simp only [toolSetLoop, pairsLoop, hc]
          rw [← dictFromPairs_snoc acc (normKey c) rm.1]
          exact ih (acc ++ [(normKey c, rm.1)]) rm.2

theorem pairsLoop_keys {α : Type} [LinearOrderedField α]
    (rcos rsin : α → α) (rpi : α) :
    ∀ (cfgs : List (ToolConditionConfig α)) (acc) (m) (pairs) (mfin),
      pairsLoop rcos rsin rpi acc m cfgs = Except.ok (pairs, mfin) →
      pairs.map Prod.fst = acc.map Prod.fst ++ cfgs.map normKey := by
  intro cfgs
  induction cfgs with
  | nil =>
      intro acc m pairs mfin h
      rw [pairsLoop] at h
      have h1 := Except.ok.inj h
      injection h1 with h2 h3
      subst h2
      simp
  | cons c rest ih =>
      intro acc m pairs mfin h
      rw [pairsLoop] at h
      cases hc : create_tool_condition rcos rsin rpi m c with
      | error e =>
          rw [hc] at h
          exact Except.noConfusion h
      | ok rm =>
          rw [hc] at h
          have := ih (acc ++ [(normKey c, rm.1)]) rm.2 pairs mfin h
          rw [this]
          simp

/-- C10. `create_tool_set_conditions` keys its result dict by the
lower-cased, underscore-joined config name; whenever every config
processes successfully the call returns the dict built from the ordered
`(key, result)` assignments (no error, even with duplicate keys), each
key's final value is the result of the *last* processed config with
that key, and duplicate keys make the returned dict strictly smaller
than the input list. -/
theorem spec_C10 {α : Type} [LinearOrderedField α] (rcos rsin : α → α)
    (rpi : α) (m : ToolConditionManager α)
    (cfgs : List (ToolConditionConfig α))
    (pairs : List (String ×
      (List (String × DefineCurve α) × List (String × ToolCondition α))))
    (mfin : ToolConditionManager α)
    (hp : processedPairs rcos rsin rpi m cfgs = Except.ok (pairs, mfin)) :
    create_tool_set_conditions rcos rsin rpi m cfgs =
      Except.ok (dictFromPairs pairs, mfin) ∧
    pairs.map Prod.fst = (_sort_configs_by_dependency cfgs).map normKey ∧
    (∀ k, dictLookup k (dictFromPairs pairs) =
      ((pairs.filter fun p => p.1 = k).getLast?).map Prod.snd) ∧
    (¬ (pairs.map Prod.fst).Nodup →
      (dictFromPairs pairs).length < cfgs.length) := by
  have hkeys := pairsLoop_keys rcos rsin rpi
    (_sort_configs_by_dependency cfgs) [] m pairs mfin hp
  simp only [List.map_nil, List.nil_append] at hkeys
  refine ⟨?_, hkeys, fun k => dictFromPairs_lookup pairs k, ?_⟩
  · show toolSetLoop rcos rsin rpi [] m (_sort_configs_by_dependency cfgs) =
      Except.ok (dictFromPairs pairs, mfin)
    have := toolSetLoop_eq_pairsLoop rcos rsin rpi
      (_sort_configs_by_dependency cfgs) [] m
    rw [show dictFromPairs ([] : List (String ×
        (List (String × DefineCurve α) ×
          List (String × ToolCondition α)))) = [] from rfl] at this
    rw [this]
    show (pairsLoop rcos rsin rpi [] m
      (_sort_configs_by_dependency cfgs)).map
        (fun pm => (dictFromPairs pm.1, pm.2)) = _
    rw [show pairsLoop rcos rsin rpi [] m
      (_sort_configs_by_dependency cfgs) = Except.ok (pairs, mfin) from hp]
    rfl
  · intro hdup
    have hlt := (dictFromPairs_length pairs).2 hdup
    have hplen : pairs.length = cfgs.length := by
      have h1 : (pairs.map Prod.fst).length =
          ((_sort_configs_by_dependency cfgs).map normKey).length := by
        rw [hkeys]
      simp only [List.length_map] at h1
      rw [h1, sort_configs_length]
    omega

/-- C10 witness: two load configs named `"Tool A"` and `"tool a"` both
normalise to the key `"tool_a"`; the call succeeds and the returned
dict has 1 entry for the 2 input configs. -/
theorem spec_C10_witness :
    ∃ pairs mfin,
      processedPairs qzero qzero 0 (initManager none)
        [toolACfg, toolBCfg] = Except.ok (pairs, mfin) ∧
      create_tool_set_conditions qzero qzero 0 (initManager none)
        [toolACfg, toolBCfg] = Except.ok (dictFromPairs pairs, mfin) ∧
      pairs.map Prod.fst = ["tool_a", "tool_a"] ∧
      (dictFromPairs pairs).length < 2 := by
  obtain ⟨pairs, mfin, hp⟩ : ∃ pairs mfin,
      processedPairs qzero qzero 0 (initManager none)
        [toolACfg, toolBCfg] = Except.ok (pairs, mfin) := ⟨_, _, rfl⟩
  have h := spec_C10 qzero qzero 0 (initManager none) [toolACfg, toolBCfg]
    pairs mfin hp
  refine ⟨pairs, mfin, hp, h.1, ?_, ?_⟩
  · rw [h.2.1]
    rfl
  · apply h.2.2.2
    rw [h.2.1]
    decide

/-- C5 witness at `ramp_time = 1`, `hold_time = 10`, `num_pts = 2`. -/
theorem spec_C5_witness :
    (generate_half_cosine_curve Real.cos Real.pi (1 : ℝ) 10 2).2.Chain'
      (· ≤ ·) ∧
    (generate_half_cosine_curve Real.cos Real.pi (1 : ℝ) 10 2).2.head? =
      some 0 ∧
    (∀ p ∈ (generate_half_cosine_curve Real.cos Real.pi (1 : ℝ) 10 2).1.zip
        (generate_half_cosine_curve Real.cos Real.pi (1 : ℝ) 10 2).2,
      (1 : ℝ) ≤ p.1 → p.2 = 1) ∧
    (generate_half_cosine_curve Real.cos Real.pi (1 : ℝ) 10 2).1.drop 2 =
      [1, 1 + 10] ∧
    (generate_half_cosine_curve Real.cos Real.pi (1 : ℝ) 10 2).2.drop 2 =
      [1, 1] ∧
    ((1 : ℝ), (1 : ℝ)) ∈
      (generate_half_cosine_curve Real.cos Real.pi (1 : ℝ) 10 2).1.zip
        (generate_half_cosine_curve Real.cos Real.pi (1 : ℝ) 10 2).2 :=
  spec_C5 1 10 2 one_pos (by norm_num)

end App
